import Mathlib

/-!
Verification development for the NPC spawner and delivery-matching core of the
`orcs-want-axes` scene (file `npcSpawner` plus the scoreboard in `ui.tsx` and the
tunables in `constants.ts`).

The TypeScript source drives each NPC by a family of per-frame "systems"
(closures keyed by NPC id) sharing mutable closure state (`hasReceivedItem`,
`noLongerAcceptsItems`, ...).  Here that is embedded shallowly as a pure state
machine: the closure state of one NPC becomes an `NPC` record, the spawner's
fields become a `GameState` record, and each source function becomes a Lean
function from `GameState` to `GameState`.  Entity existence (`Transform.has npc
&& AvatarShape.has npc` in the source) is modelled by presence of the NPC's
record in the registry list `GameState.npcs`: `engine.removeEntity npc` removes
the record, and a timer that fires for a missing entity finds no record and is
a no-op, exactly as the source's existence checks make it.  Durations are exact
rationals; `Math.random()` draws are passed in as explicit parameters in
`[0,1)`.  Presentation-only effects (avatar colours, emotes, tween geometry,
confetti, the countdown plane's scale) carry no game state and are omitted,
except that the UI message text is kept.
-/

namespace OrcsWantAxes

/-- Item types, from the `ItemType` enum in `constants.ts`. -/
inductive ItemType
  | herb | cup | ore | iron | axe | potion
deriving DecidableEq, Repr

/-- `DELIVERED_TO_WIN` in `constants.ts`. -/
def DELIVERED_TO_WIN : Nat := 5

/-- `DELIVERED_TO_LOSE` in `constants.ts`. -/
def DELIVERED_TO_LOSE : Nat := 5

/-- `NPC_SPAWN_INTERVAL` in `constants.ts` (milliseconds). -/
def NPC_SPAWN_INTERVAL : ℚ := 2000

/-- `NPC_WAIT_TIME` in `constants.ts` (seconds). -/
def NPC_WAIT_TIME : ℚ := 20

/-- `NPC_WAIT_TIME_VARIATION` in `constants.ts` (seconds, plus or minus). -/
def NPC_WAIT_TIME_VARIATION : ℚ := 2

/-- The ids of `NPC_SPOTS` in `constants.ts`, in array order. -/
def NPC_SPOT_IDS : List Nat := [0, 1, 2]

/-- One waiting spot: the `Spot` type of the spawner (position omitted, it is
presentational). -/
structure Spot where
  id : Nat
  occupied : Bool
deriving DecidableEq, Repr

/-- The behavioural phase of one NPC.  `walkingIn` covers the walk to the spot
and the arrival staging; `waiting` starts when the arrival emote ends and the
interaction surface plus wait timer are installed; `goodbyeDelay` is entered by
`sendNPCBack` (spot already freed, 100 ms before the goodbye emote);
`goodbyeEmote` is the 2 s goodbye emote; `returning` is the walk back to the
origin point.  Despawn removes the record altogether. -/
inductive NpcPhase
  | walkingIn | waiting | goodbyeDelay | goodbyeEmote | returning
deriving DecidableEq, Repr

/-- The per-NPC closure state of `createWalkingNPC`: the mutable locals
`hasReceivedItem` and `noLongerAcceptsItems`, the wait-timer state of
`startWaitTimer`, whether the pointer-interaction collider is installed, the
`NPCItem` component, and the identity captured by the closures. -/
structure NPC where
  npcId : Nat
  spotId : Nat
  isElf : Bool
  hasReceivedItem : Bool
  noLongerAcceptsItems : Bool
  interactionActive : Bool
  waitTimerActive : Bool
  waitElapsed : ℚ
  actualWaitTime : ℚ
  phase : NpcPhase
  phaseElapsed : ℚ
  verdictGood : Bool
  npcHeldItem : Option ItemType
deriving DecidableEq, Repr

/-- The whole game state: the `NPCSpawner` fields (`spots`, `npcIndex`,
`elapsedTime`, `spawnInterval`, `isSpawning`, `activeNPCs`), the registry of
live NPC entities, the scoreboard module state of `ui.tsx` (`goodDelivered`,
`badDelivered`, `isGameOver`), the player's right-hand item as reported by
`hasItemInRightHand`, and the UI message. -/
structure GameState where
  spots : List Spot
  npcIndex : Nat
  elapsedTime : ℚ
  spawnInterval : ℚ
  isSpawning : Bool
  activeNPCs : List Nat
  npcs : List NPC
  goodDelivered : Nat
  badDelivered : Nat
  isGameOver : Bool
  playerHeld : Option ItemType
  uiMessage : String
deriving DecidableEq, Repr

/-- `getFreeSpot`: linear scan, first spot with `occupied = false`, else none. -/
def getFreeSpot (spots : List Spot) : Option Spot :=
  spots.find? (fun sp => !sp.occupied)

/-- `occupySpot`: find the spot by id; refuse (returning `false`) if it does
not exist or is already occupied, else mark it occupied and return `true`. -/
def occupySpot (spots : List Spot) (spotId : Nat) : List Spot × Bool :=
  match spots.find? (fun sp => sp.id == spotId) with
  | none => (spots, false)
  | some sp =>
    if sp.occupied then (spots, false)
    else (spots.map (fun t => if t.id == spotId then { t with occupied := true } else t), true)

/-- `freeSpot`: find the spot by id and mark it free (freeing an already-free
spot is logged as an anomaly in the source but still leaves it free). -/
def freeSpot (spots : List Spot) (spotId : Nat) : List Spot :=
  match spots.find? (fun sp => sp.id == spotId) with
  | none => spots
  | some _ => spots.map (fun t => if t.id == spotId then { t with occupied := false } else t)

/-- `showUIMessage` from the helpers (sets the UI message). -/
def showUIMessage (m : String) (s : GameState) : GameState :=
  { s with uiMessage := m }

/-- `clearUIMessage` from the helpers. -/
def clearUIMessage (s : GameState) : GameState :=
  { s with uiMessage := "" }

/-- `stopSpawning`: clears the spawning flag, nothing else. -/
def stopSpawning (s : GameState) : GameState :=
  { s with isSpawning := false }

/-- `restartSpawning`: re-enables spawning, resets the spawn index and elapsed
time, and frees every spot; it does not touch the NPC registry or list. -/
def restartSpawning (s : GameState) : GameState :=
  { s with isSpawning := true, npcIndex := 0, elapsedTime := 0,
           spots := s.spots.map (fun sp => { sp with occupied := false }) }

/-- `removeAllNPCs`: free every spot, `engine.removeEntity` every tracked NPC
(removing its record), and clear the active list. -/
def removeAllNPCs (s : GameState) : GameState :=
  { s with spots := s.spots.map (fun sp => { sp with occupied := false }),
           npcs := s.npcs.filter (fun n => !(s.activeNPCs.contains n.npcId)),
           activeNPCs := [] }

/-- `gameFinished` from the helpers, as far as it touches modelled state:
clear the UI message, stop spawning, remove all NPCs, remove all non-NPC items
(in particular the player's held item), and set the game-over flag.  The
win/lose banner, sound and animation are presentational. -/
def gameFinished (winner : Bool) (s : GameState) : GameState :=
  let s1 := clearUIMessage s
  let s2 := stopSpawning s1
  let s3 := removeAllNPCs s2
  let s4 := { s3 with playerHeld := none }
  { s4 with isGameOver := true }

/-- `incrementGoodDelivered` in `ui.tsx`: bump the counter and end the game in
a win once it reaches `DELIVERED_TO_WIN`. -/
def incrementGoodDelivered (s : GameState) : GameState :=
  if DELIVERED_TO_WIN ≤ s.goodDelivered + 1 then
    gameFinished true { s with goodDelivered := s.goodDelivered + 1 }
  else { s with goodDelivered := s.goodDelivered + 1 }

/-- `incrementBadDelivered` in `ui.tsx`: bump the counter and end the game in
a loss once it reaches `DELIVERED_TO_LOSE`. -/
def incrementBadDelivered (s : GameState) : GameState :=
  if DELIVERED_TO_LOSE ≤ s.badDelivered + 1 then
    gameFinished false { s with badDelivered := s.badDelivered + 1 }
  else { s with badDelivered := s.badDelivered + 1 }

/-- `resetGame` from the helpers, as far as it touches modelled state: reset
the counters, clear the game-over flag, restart spawning, clear the message.
The Play-Again button that invokes it is only rendered while the game-over
state is active, so the event is guarded by the game-over flag. -/
def resetGame (s : GameState) : GameState :=
  if s.isGameOver then
    let s1 := { s with goodDelivered := 0, badDelivered := 0 }
    let s2 := { s1 with isGameOver := false }
    let s3 := restartSpawning s2
    clearUIMessage s3
  else s

/-- Look an NPC entity up by id (entity existence check). -/
def findNpc (s : GameState) (id : Nat) : Option NPC :=
  s.npcs.find? (fun n => n.npcId == id)

/-- Update the record of the NPC with the given id (all updaters used below
preserve `npcId`). -/
def updateNpc (s : GameState) (id : Nat) (f : NPC → NPC) : GameState :=
  { s with npcs := s.npcs.map (fun n => if n.npcId == id then f n else n) }

/-- `sendNPCBack`: if the NPC entity still exists, free its spot at once and
enter the goodbye sequence (100 ms delay, then emote, then the return walk),
recording the outcome polarity that selects the goodbye emote. -/
def sendNPCBack (isGood : Bool) (s : GameState) (id : Nat) : GameState :=
  match findNpc s id with
  | none => s
  | some n =>
    let s1 := { s with spots := freeSpot s.spots n.spotId }
    updateNpc s1 id (fun m =>
      { m with phase := NpcPhase.goodbyeDelay, phaseElapsed := 0, verdictGood := isGood })

/-- `startWaitTimer`: install the wait timer with deadline
`NPC_WAIT_TIME + (r - 0.5) * 2 * NPC_WAIT_TIME_VARIATION` for this NPC's fresh
`Math.random()` draw `r`. -/
def startWaitTimer (s : GameState) (id : Nat) (r : ℚ) : GameState :=
  updateNpc s id (fun n =>
    { n with waitTimerActive := true, waitElapsed := 0,
             actualWaitTime := NPC_WAIT_TIME + (r - 1/2) * 2 * NPC_WAIT_TIME_VARIATION })

/-- `activateInteraction`: install the pointer-interaction surface. -/
def activateInteraction (s : GameState) (id : Nat) : GameState :=
  updateNpc s id (fun n => { n with interactionActive := true })

/-- The end of the arrival-emote system (`arrivalEmoteEnd`): the NPC becomes
interactive and its wait timer starts, i.e. it enters the Waiting state.
`r` is the `Math.random()` draw consumed by `startWaitTimer`. -/
def npcArrive (s : GameState) (id : Nat) (r : ℚ) : GameState :=
  match findNpc s id with
  | none => s
  | some n =>
    if n.phase = NpcPhase.walkingIn then
      let s1 := updateNpc s id (fun m => { m with phase := NpcPhase.waiting })
      let s2 := activateInteraction s1 id
      startWaitTimer s2 id r
    else s

/-- One tick of the `waitTimer` system: cancel if the item was received or the
entity is gone; otherwise advance the elapsed time, and on expiry set the
no-longer-accepts-items latch, tear down the interaction surface, count a bad
delivery, and send the NPC back. -/
def waitTimerTick (s : GameState) (id : Nat) (dt : ℚ) : GameState :=
  match findNpc s id with
  | none => s
  | some n =>
    if n.waitTimerActive then
      if n.hasReceivedItem then
        updateNpc s id (fun m => { m with waitTimerActive := false })
      else
        let e := n.waitElapsed + dt
        if n.actualWaitTime ≤ e then
          let s1 := updateNpc s id (fun m =>
            { m with waitElapsed := e, noLongerAcceptsItems := true,
                     interactionActive := false, waitTimerActive := false })
          let s2 := incrementBadDelivered s1
          sendNPCBack false s2 id
        else
          updateNpc s id (fun m => { m with waitElapsed := e })
    else s

/-- `expectedItemType` per the validation in `giveItemToNPC`:
elf expects a potion, orc expects an axe. -/
def expectedItemType (isElf : Bool) : ItemType :=
  if isElf then ItemType.potion else ItemType.axe

/-- The `try` block of `giveItemToNPC`, as the sequence of its state-relevant
steps: (0) compute the verdict, (1) remove the player's item, (2) clear the UI
message, (3) increment the matching counter (showing "Wrong item" on a bad
one), (4) attach the new item to the NPC (`NPCItem`).  `errAt = some e` models
an exception thrown after the first `e` steps, caught by the handler; the
verdict variable is declared `false` before the `try`, so an error before step
0 leaves it `false`. -/
def giveItemTry (s : GameState) (id : Nat) (t : ItemType) (isElf : Bool)
    (errAt : Option Nat) : GameState × Bool :=
  let runs : Nat → Bool := fun k =>
    match errAt with | none => true | some e => decide (k < e)
  let verdict := if runs 0 then decide (t = expectedItemType isElf) else false
  let s1 := if runs 1 then { s with playerHeld := none } else s
  let s2 := if runs 2 then clearUIMessage s1 else s1
  let s3 := if runs 3 then
      (if verdict then incrementGoodDelivered s2
       else showUIMessage "Wrong item" (incrementBadDelivered s2)) else s2
  let s4 := if runs 4 then updateNpc s3 id (fun n => { n with npcHeldItem := some t }) else s3
  (s4, verdict)

/-- `giveItemToNPC`: the guards (game over, no-longer-accepts latch with its
"Too late" message, has-received latch), the has-received latch write, the
`try` block, and the `finally` block that sends the NPC back with whatever
verdict was determined, provided the entity still exists. -/
def giveItemToNPC (s : GameState) (id : Nat) (t : ItemType) (errAt : Option Nat) :
    GameState :=
  match findNpc s id with
  | none => s
  | some n =>
    if s.isGameOver then s
    else if n.noLongerAcceptsItems then
      showUIMessage "Too late! The customer is already leaving" s
    else if n.hasReceivedItem then s
    else
      let s1 := updateNpc s id (fun m => { m with hasReceivedItem := true })
      let p := giveItemTry s1 id t n.isElf errAt
      match findNpc p.1 id with
      | some _ => sendNPCBack p.2 p.1 id
      | none => p.1

/-- `handleNPCInteraction`: the pointer-down callback.  It can only fire while
the interaction surface is installed; with an item in hand it delegates to
`giveItemToNPC`, otherwise it shows the "nothing to give" message. -/
def handleNPCInteraction (s : GameState) (id : Nat) (errAt : Option Nat) : GameState :=
  match findNpc s id with
  | none => s
  | some n =>
    if n.interactionActive then
      match s.playerHeld with
      | some t => giveItemToNPC s id t errAt
      | none => showUIMessage "You should have something to give" s
    else s

/-- One tick of the `goodbyeEmoteDelay` system: after 100 ms hide the plane,
tear down the interaction surface, trigger the goodbye emote. -/
def goodbyeDelayTick (s : GameState) (id : Nat) (dt : ℚ) : GameState :=
  match findNpc s id with
  | none => s
  | some n =>
    if n.phase = NpcPhase.goodbyeDelay then
      let e := n.phaseElapsed + dt * 1000
      if 100 ≤ e then
        updateNpc s id (fun m =>
          { m with phase := NpcPhase.goodbyeEmote, phaseElapsed := 0,
                   interactionActive := false })
      else updateNpc s id (fun m => { m with phaseElapsed := e })
    else s

/-- One tick of the `goodbyeEmote` system: after the 2000 ms emote, start the
return walk towards the origin point. -/
def goodbyeEmoteTick (s : GameState) (id : Nat) (dt : ℚ) : GameState :=
  match findNpc s id with
  | none => s
  | some n =>
    if n.phase = NpcPhase.goodbyeEmote then
      let e := n.phaseElapsed + dt * 1000
      if 2000 ≤ e then
        updateNpc s id (fun m =>
          { m with phase := NpcPhase.returning, phaseElapsed := 0 })
      else updateNpc s id (fun m => { m with phaseElapsed := e })
    else s

/-- The arrival branch of the `checkReturn` system: when the returning NPC is
back at its origin, destroy its attached item and its entity and remove it
from the active list.  Spots are not touched here. -/
def despawnNPC (s : GameState) (id : Nat) : GameState :=
  match findNpc s id with
  | none => s
  | some n =>
    if n.phase = NpcPhase.returning then
      { s with npcs := s.npcs.filter (fun m => !(m.npcId == id)),
               activeNPCs := s.activeNPCs.erase id }
    else s

/-- A fresh NPC record as `createWalkingNPC` builds it: walking in, both
latches clear, no interaction surface, no wait timer yet. -/
def mkNPC (npcId spotId : Nat) (isElf : Bool) : NPC :=
  { npcId := npcId, spotId := spotId, isElf := isElf,
    hasReceivedItem := false, noLongerAcceptsItems := false,
    interactionActive := false, waitTimerActive := false,
    waitElapsed := 0, actualWaitTime := 0, phase := NpcPhase.walkingIn,
    phaseElapsed := 0, verdictGood := false, npcHeldItem := none }

/-- `createWalkingNPC`: occupy the spot first and abort NPC creation when that
fails; otherwise add the entity and track it in the active list. -/
def createWalkingNPC (s : GameState) (npcId spotId : Nat) (isElf : Bool) : GameState :=
  let r := occupySpot s.spots spotId
  if r.2 then
    { s with spots := r.1,
             activeNPCs := s.activeNPCs ++ [npcId],
             npcs := s.npcs ++ [mkNPC npcId spotId isElf] }
  else s

/-- One tick of the spawner system installed by `startSpawning`: do nothing
while paused; otherwise advance the elapsed-time accumulator by `dt * 1000`
milliseconds, and when it has reached `npcIndex * spawnInterval` and a free
spot exists, create one NPC on the first free spot and advance the index.
`isElf` stands for the `Math.random() < 0.5` race draw. -/
def spawnerTick (s : GameState) (dt : ℚ) (isElf : Bool) : GameState :=
  if s.isSpawning then
    let s1 := { s with elapsedTime := s.elapsedTime + dt * 1000 }
    if (s1.npcIndex : ℚ) * s1.spawnInterval ≤ s1.elapsedTime then
      match getFreeSpot s1.spots with
      | some sp =>
        let s2 := createWalkingNPC s1 s1.npcIndex sp.id isElf
        { s2 with npcIndex := s2.npcIndex + 1 }
      | none => s1
    else s1
  else s

/-- The item-economy boundary: the stations and discard pad change what the
player holds; the spawner core only observes it. -/
def setHeld (s : GameState) (o : Option ItemType) : GameState :=
  { s with playerHeld := o }

/-- The state right after the `NPCSpawner` constructor ran and the scoreboard
module loaded: the three spots free, nothing spawned, counters zero. -/
def initialState : GameState :=
  { spots := NPC_SPOT_IDS.map (fun i => { id := i, occupied := false }),
    npcIndex := 0, elapsedTime := 0, spawnInterval := NPC_SPAWN_INTERVAL,
    isSpawning := true, activeNPCs := [], npcs := [],
    goodDelivered := 0, badDelivered := 0, isGameOver := false,
    playerHeld := none, uiMessage := "" }

/-- One event of the frame loop: a spawner tick, an NPC reaching the Waiting
state, a wait-timer tick, a pointer interaction (with an optional injected
resolution error), the goodbye/return sequence ticks, a despawn, the public
`stopSpawning`, the Play-Again reset, or an item-economy change of the held
item.  Frame deltas are nonnegative and random draws lie in `[0,1)`. -/
inductive Step : GameState → GameState → Prop
  | spawner (s : GameState) (dt : ℚ) (isElf : Bool) (h : 0 ≤ dt) :
      Step s (spawnerTick s dt isElf)
  | arrive (s : GameState) (id : Nat) (r : ℚ) (h0 : 0 ≤ r) (h1 : r < 1) :
      Step s (npcArrive s id r)
  | waitTick (s : GameState) (id : Nat) (dt : ℚ) (h : 0 ≤ dt) :
      Step s (waitTimerTick s id dt)
  | interact (s : GameState) (id : Nat) (errAt : Option Nat) :
      Step s (handleNPCInteraction s id errAt)
  | byeDelay (s : GameState) (id : Nat) (dt : ℚ) (h : 0 ≤ dt) :
      Step s (goodbyeDelayTick s id dt)
  | byeEmote (s : GameState) (id : Nat) (dt : ℚ) (h : 0 ≤ dt) :
      Step s (goodbyeEmoteTick s id dt)
  | despawn (s : GameState) (id : Nat) :
      Step s (despawnNPC s id)
  | stopSp (s : GameState) :
      Step s (stopSpawning s)
  | reset (s : GameState) :
      Step s (resetGame s)
  | economy (s : GameState) (o : Option ItemType) :
      Step s (setHeld s o)

/-- States reachable from the freshly constructed scene. -/
inductive Reachable : GameState → Prop
  | init : Reachable initialState
  | step {s t : GameState} : Reachable s → Step s t → Reachable t

/-! ### Basic lemmas about the embedding -/

theorem npcMap_of_find?_none (l : List NPC) (id : Nat) (f : NPC → NPC)
    (h : l.find? (fun n => n.npcId == id) = none) :
    l.map (fun n => if n.npcId == id then f n else n) = l := by
  induction l with
  | nil => rfl
  | cons a t ih =>
    rw [List.find?_cons] at h
    cases ha : a.npcId == id
    · rw [ha] at h
      rw [List.map_cons, if_neg (by simp [ha]), ih h]
    · rw [ha] at h
      simp at h

theorem find?_npcMap_some (l : List NPC) (id : Nat) (f : NPC → NPC) (n : NPC)
    (hid : ∀ m, (f m).npcId = m.npcId)
    (h : l.find? (fun m => m.npcId == id) = some n) :
    (l.map (fun m => if m.npcId == id then f m else m)).find? (fun m => m.npcId == id)
      = some (f n) := by
  induction l with
  | nil => simp at h
  | cons a t ih =>
    rw [List.find?_cons] at h
    cases ha : a.npcId == id
    · rw [ha] at h
      rw [List.map_cons, if_neg (by simp [ha]), List.find?_cons]
      rw [ha]
      exact ih h
    · rw [ha] at h
      simp only [Option.some.injEq] at h
      subst h
      rw [List.map_cons, if_pos ha, List.find?_cons]
      have h2 : ((f a).npcId == id) = true := by rw [hid]; exact ha
      rw [h2]

theorem updateNpc_of_findNpc_none (s : GameState) (id : Nat) (f : NPC → NPC)
    (h : findNpc s id = none) : updateNpc s id f = s := by
  show ({ s with npcs := s.npcs.map _ } : GameState) = s
  rw [npcMap_of_find?_none s.npcs id f h]

theorem findNpc_updateNpc_some (s : GameState) (id : Nat) (f : NPC → NPC) (n : NPC)
    (hid : ∀ m, (f m).npcId = m.npcId)
    (h : findNpc s id = some n) :
    findNpc (updateNpc s id f) id = some (f n) := by
  exact find?_npcMap_some s.npcs id f n hid h

theorem findNpc_id_eq (s : GameState) (id : Nat) (n : NPC)
    (h : findNpc s id = some n) : n.npcId = id := by
  have h2 := List.find?_some h
  simpa using h2

theorem updateNpc_spots (s : GameState) (id : Nat) (f : NPC → NPC) :
    (updateNpc s id f).spots = s.spots := rfl

theorem updateNpc_good (s : GameState) (id : Nat) (f : NPC → NPC) :
    (updateNpc s id f).goodDelivered = s.goodDelivered := rfl

theorem updateNpc_bad (s : GameState) (id : Nat) (f : NPC → NPC) :
    (updateNpc s id f).badDelivered = s.badDelivered := rfl

theorem updateNpc_gameOver (s : GameState) (id : Nat) (f : NPC → NPC) :
    (updateNpc s id f).isGameOver = s.isGameOver := rfl

theorem updateNpc_held (s : GameState) (id : Nat) (f : NPC → NPC) :
    (updateNpc s id f).playerHeld = s.playerHeld := rfl

theorem updateNpc_active (s : GameState) (id : Nat) (f : NPC → NPC) :
    (updateNpc s id f).activeNPCs = s.activeNPCs := rfl

theorem gameFinished_good (w : Bool) (s : GameState) :
    (gameFinished w s).goodDelivered = s.goodDelivered := rfl

theorem gameFinished_bad (w : Bool) (s : GameState) :
    (gameFinished w s).badDelivered = s.badDelivered := rfl

theorem incrementGood_good (s : GameState) :
    (incrementGoodDelivered s).goodDelivered = s.goodDelivered + 1 := by
  unfold incrementGoodDelivered
  split
  · rw [gameFinished_good]
  · rfl

theorem incrementGood_bad (s : GameState) :
    (incrementGoodDelivered s).badDelivered = s.badDelivered := by
  unfold incrementGoodDelivered
  split
  · rw [gameFinished_bad]
  · rfl

theorem incrementBad_bad (s : GameState) :
    (incrementBadDelivered s).badDelivered = s.badDelivered + 1 := by
  unfold incrementBadDelivered
  split
  · rw [gameFinished_bad]
  · rfl

theorem incrementBad_good (s : GameState) :
    (incrementBadDelivered s).goodDelivered = s.goodDelivered := by
  unfold incrementBadDelivered
  split
  · rw [gameFinished_good]
  · rfl

theorem incrementGood_of_lt (s : GameState)
    (h : s.goodDelivered + 1 < DELIVERED_TO_WIN) :
    incrementGoodDelivered s = { s with goodDelivered := s.goodDelivered + 1 } := by
  unfold incrementGoodDelivered
  rw [if_neg]
  omega

theorem incrementBad_of_lt (s : GameState)
    (h : s.badDelivered + 1 < DELIVERED_TO_LOSE) :
    incrementBadDelivered s = { s with badDelivered := s.badDelivered + 1 } := by
  unfold incrementBadDelivered
  rw [if_neg]
  omega

/-- The record produced by `npcArrive` for a walking-in NPC. -/
theorem npcArrive_findNpc (s : GameState) (id : Nat) (r : ℚ) (n : NPC)
    (hf : findNpc s id = some n) (hph : n.phase = NpcPhase.walkingIn) :
    findNpc (npcArrive s id r) id
      = some { n with phase := NpcPhase.waiting, interactionActive := true,
                      waitTimerActive := true, waitElapsed := 0,
                      actualWaitTime :=
                        NPC_WAIT_TIME + (r - 1/2) * 2 * NPC_WAIT_TIME_VARIATION } := by
  unfold npcArrive
  simp only [hf]
  rw [if_pos hph]
  unfold activateInteraction startWaitTimer
  have h1 := findNpc_updateNpc_some s id
    (fun m => { m with phase := NpcPhase.waiting }) n (fun m => rfl) hf
  have h2 := findNpc_updateNpc_some _ id
    (fun m => { m with interactionActive := true }) _ (fun m => rfl) h1
  have h3 := findNpc_updateNpc_some _ id
    (fun m =>
      { m with waitTimerActive := true, waitElapsed := 0,
               actualWaitTime := NPC_WAIT_TIME + (r - 1/2) * 2 * NPC_WAIT_TIME_VARIATION })
    _ (fun m => rfl) h2
  exact h3

/-! ### Demo states used by the witnesses -/

/-- A concrete NPC standing at spot 0 in the Waiting state. -/
def demoWaitingNpc : NPC :=
  { npcId := 0, spotId := 0, isElf := true, hasReceivedItem := false,
    noLongerAcceptsItems := false, interactionActive := true,
    waitTimerActive := true, waitElapsed := 0, actualWaitTime := 20,
    phase := NpcPhase.waiting, phaseElapsed := 0, verdictGood := false,
    npcHeldItem := none }

/-- A concrete NPC still walking towards spot 1. -/
def demoWalkingNpc : NPC := mkNPC 1 1 false

/-- A concrete state: NPC 0 waiting at spot 0, NPC 1 walking in to spot 1,
the player holding a potion. -/
def demoState : GameState :=
  { spots := [{ id := 0, occupied := true }, { id := 1, occupied := true },
              { id := 2, occupied := false }],
    npcIndex := 2, elapsedTime := 4000, spawnInterval := NPC_SPAWN_INTERVAL,
    isSpawning := true, activeNPCs := [0, 1],
    npcs := [demoWaitingNpc, demoWalkingNpc],
    goodDelivered := 0, badDelivered := 0, isGameOver := false,
    playerHeld := some ItemType.potion, uiMessage := "" }

/-- `demoState` with the game-over flag forced on. -/
def demoGameOverState : GameState :=
  { demoState with isGameOver := true }

/-! ### C9 -/

/-- C9: `restartSpawning` re-enables the cadence, resets the spawn index and
the elapsed-time accumulator to 0 and force-frees all spots, while leaving the
active-NPC list, the NPC records, the counters and the game-over flag
unchanged; `stopSpawning` only clears the spawning flag and changes nothing
else. -/
theorem c9_restart_stop_effects (s : GameState) :
    (restartSpawning s).isSpawning = true ∧
    (restartSpawning s).npcIndex = 0 ∧
    (restartSpawning s).elapsedTime = 0 ∧
    (restartSpawning s).spots = s.spots.map (fun sp => { sp with occupied := false }) ∧
    (restartSpawning s).activeNPCs = s.activeNPCs ∧
    (restartSpawning s).npcs = s.npcs ∧
    (restartSpawning s).goodDelivered = s.goodDelivered ∧
    (restartSpawning s).badDelivered = s.badDelivered ∧
    (restartSpawning s).isGameOver = s.isGameOver ∧
    (restartSpawning s).spawnInterval = s.spawnInterval ∧
    stopSpawning s = { s with isSpawning := false } :=
  ⟨rfl, rfl, rfl, rfl, rfl, rfl, rfl, rfl, rfl, rfl, rfl⟩

/-! ### C10 -/

/-- C10: while the game-over flag is active, an interact trigger on a Waiting
NPC with an item in hand is a complete no-op — the state is unchanged, so no
counter moves, the held item stays, and the NPC stays in Waiting — and its
countdown keeps running: the next wait-timer tick still advances the elapsed
wait time. -/
theorem c10_gameover_interact_noop (s : GameState) (id : Nat) (n : NPC)
    (t : ItemType) (errAt : Option Nat) (dt : ℚ)
    (hf : findNpc s id = some n)
    (hover : s.isGameOver = true)
    (hheld : s.playerHeld = some t)
    (hint : n.interactionActive = true)
    (htimer : n.waitTimerActive = true)
    (hrecv : n.hasReceivedItem = false)
    (hlt : n.waitElapsed + dt < n.actualWaitTime) :
    handleNPCInteraction s id errAt = s ∧
    findNpc (waitTimerTick s id dt) id
      = some { n with waitElapsed := n.waitElapsed + dt } := by
  constructor
  · simp [handleNPCInteraction, hf, hint, hheld, giveItemToNPC, hover]
  · have hupd := findNpc_updateNpc_some s id
      (fun m => { m with waitElapsed := n.waitElapsed + dt }) n (fun m => rfl) hf
    simp [waitTimerTick, hf, htimer, hrecv, not_le.mpr hlt, hupd]

/-- Witness for C10 at a concrete game-over state. -/
theorem c10_witness :
    handleNPCInteraction demoGameOverState 0 none = demoGameOverState ∧
    findNpc (waitTimerTick demoGameOverState 0 1) 0
      = some { demoWaitingNpc with waitElapsed := demoWaitingNpc.waitElapsed + 1 } :=
  c10_gameover_interact_noop demoGameOverState 0 demoWaitingNpc ItemType.potion none 1
    rfl rfl rfl rfl rfl rfl (by simp [demoWaitingNpc])

/-! ### C5 -/

/-- C5: the countdown deadline fixed when an NPC enters Waiting equals
`NPC_WAIT_TIME` plus the variation `(r - 0.5) * 2 * NPC_WAIT_TIME_VARIATION`
drawn from this NPC's own fresh `Math.random()` roll `r ∈ [0,1)`; the
variation term stays within plus/minus `NPC_WAIT_TIME_VARIATION`, so the
deadline lies in the 20 ± 2 second window under the current constants, and two
NPCs entering Waiting with different rolls receive different deadlines (no
lockstep expiry). -/
theorem c5_wait_deadline (s s2 : GameState) (id id2 : Nat) (r r2 : ℚ) (n n2 : NPC)
    (h0 : 0 ≤ r) (h1 : r < 1) (h20 : 0 ≤ r2) (h21 : r2 < 1)
    (hf : findNpc s id = some n) (hph : n.phase = NpcPhase.walkingIn)
    (hf2 : findNpc s2 id2 = some n2) (hph2 : n2.phase = NpcPhase.walkingIn) :
    ∃ n1 m1, findNpc (npcArrive s id r) id = some n1 ∧
      findNpc (npcArrive s2 id2 r2) id2 = some m1 ∧
      n1.actualWaitTime = NPC_WAIT_TIME + (r - 1/2) * 2 * NPC_WAIT_TIME_VARIATION ∧
      NPC_WAIT_TIME - NPC_WAIT_TIME_VARIATION ≤ n1.actualWaitTime ∧
      n1.actualWaitTime < NPC_WAIT_TIME + NPC_WAIT_TIME_VARIATION ∧
      18 ≤ n1.actualWaitTime ∧ n1.actualWaitTime < 22 ∧
      (r ≠ r2 → n1.actualWaitTime ≠ m1.actualWaitTime) := by
  refine ⟨_, _, npcArrive_findNpc s id r n hf hph,
    npcArrive_findNpc s2 id2 r2 n2 hf2 hph2, rfl, ?_, ?_, ?_, ?_, ?_⟩
  · show NPC_WAIT_TIME - NPC_WAIT_TIME_VARIATION ≤
      NPC_WAIT_TIME + (r - 1/2) * 2 * NPC_WAIT_TIME_VARIATION
    unfold NPC_WAIT_TIME NPC_WAIT_TIME_VARIATION
    linarith
  · show NPC_WAIT_TIME + (r - 1/2) * 2 * NPC_WAIT_TIME_VARIATION <
      NPC_WAIT_TIME + NPC_WAIT_TIME_VARIATION
    unfold NPC_WAIT_TIME NPC_WAIT_TIME_VARIATION
    linarith
  · show (18 : ℚ) ≤ NPC_WAIT_TIME + (r - 1/2) * 2 * NPC_WAIT_TIME_VARIATION
    unfold NPC_WAIT_TIME NPC_WAIT_TIME_VARIATION
    linarith
  · show NPC_WAIT_TIME + (r - 1/2) * 2 * NPC_WAIT_TIME_VARIATION < (22 : ℚ)
    unfold NPC_WAIT_TIME NPC_WAIT_TIME_VARIATION
    linarith
  · intro hne
    show NPC_WAIT_TIME + (r - 1/2) * 2 * NPC_WAIT_TIME_VARIATION ≠
      NPC_WAIT_TIME + (r2 - 1/2) * 2 * NPC_WAIT_TIME_VARIATION
    unfold NPC_WAIT_TIME NPC_WAIT_TIME_VARIATION
    intro heq
    apply hne
    linarith

/-- Witness for C5: NPC 1 of `demoState` arrives with roll 0 while, in a
second copy of the scene, it arrives with roll 1/2. -/
theorem c5_witness :
    ∃ n1 m1, findNpc (npcArrive demoState 1 0) 1 = some n1 ∧
      findNpc (npcArrive demoState 1 (1/2)) 1 = some m1 ∧
      n1.actualWaitTime = NPC_WAIT_TIME + (0 - 1/2) * 2 * NPC_WAIT_TIME_VARIATION ∧
      NPC_WAIT_TIME - NPC_WAIT_TIME_VARIATION ≤ n1.actualWaitTime ∧
      n1.actualWaitTime < NPC_WAIT_TIME + NPC_WAIT_TIME_VARIATION ∧
      18 ≤ n1.actualWaitTime ∧ n1.actualWaitTime < 22 ∧
      ((0 : ℚ) ≠ 1/2 → n1.actualWaitTime ≠ m1.actualWaitTime) :=
  c5_wait_deadline demoState demoState 1 1 0 (1/2) demoWalkingNpc demoWalkingNpc
    (le_refl 0) zero_lt_one one_half_pos.le one_half_lt_one
    rfl rfl rfl rfl

/-! ### C7 -/

/-- C7: `removeAllNPCs` frees all spots, destroys every tracked NPC record
immediately (bypassing the goodbye/walk-out sequence) and empties the active
list, without touching the counters; afterwards the wait timer of any removed
NPC finds no entity and self-cancels as a no-op, so the removed NPCs cause no
scoreboard change. -/
theorem c7_removeAll_clean (s : GameState) (id : Nat) (dt : ℚ)
    (hid : id ∈ s.activeNPCs) :
    (removeAllNPCs s).spots = s.spots.map (fun sp => { sp with occupied := false }) ∧
    (removeAllNPCs s).activeNPCs = [] ∧
    (removeAllNPCs s).goodDelivered = s.goodDelivered ∧
    (removeAllNPCs s).badDelivered = s.badDelivered ∧
    findNpc (removeAllNPCs s) id = none ∧
    waitTimerTick (removeAllNPCs s) id dt = removeAllNPCs s := by
  have hnone : findNpc (removeAllNPCs s) id = none := by
    apply List.find?_eq_none.mpr
    intro x hx
    rcases List.mem_filter.mp hx with ⟨hmem, hkeep⟩
    intro hbeq
    have hxid : x.npcId = id := by simpa using hbeq
    rw [hxid] at hkeep
    simp [hid] at hkeep
  refine ⟨rfl, rfl, rfl, rfl, hnone, ?_⟩
  unfold waitTimerTick
  rw [hnone]

/-! ### Latch machinery shared by C1 and C2 -/

/-- Every record of the NPC `id` carries one of the two latches that make
`giveItemToNPC` refuse a (second) delivery. -/
def ReceivedOrClosed (s : GameState) (id : Nat) : Prop :=
  ∀ m ∈ s.npcs, m.npcId = id →
    (m.hasReceivedItem = true ∨ m.noLongerAcceptsItems = true)

theorem roc_of_npcs_eq (s s' : GameState) (id : Nat)
    (h : s'.npcs = s.npcs) (hr : ReceivedOrClosed s id) : ReceivedOrClosed s' id := by
  intro m hm
  rw [h] at hm
  exact hr m hm

theorem roc_filter (s s' : GameState) (id : Nat) (q : NPC → Bool)
    (h : s'.npcs = s.npcs.filter q) (hr : ReceivedOrClosed s id) :
    ReceivedOrClosed s' id := by
  intro m hm
  rw [h] at hm
  exact hr m (List.mem_of_mem_filter hm)

theorem roc_map (s s' : GameState) (id : Nat) (g : NPC → NPC)
    (h : s'.npcs = s.npcs.map g)
    (hid : ∀ x, (g x).npcId = x.npcId)
    (hr1 : ∀ x, (g x).hasReceivedItem = x.hasReceivedItem)
    (hr2 : ∀ x, (g x).noLongerAcceptsItems = x.noLongerAcceptsItems)
    (hr : ReceivedOrClosed s id) : ReceivedOrClosed s' id := by
  intro m hm hmid
  rw [h] at hm
  rcases List.mem_map.mp hm with ⟨x, hx, hgx⟩
  subst hgx
  rw [hr1, hr2]
  exact hr x hx (by rw [← hid x]; exact hmid)

theorem roc_establish (s : GameState) (id : Nat) (f : NPC → NPC)
    (hest : ∀ x, (f x).hasReceivedItem = true ∨ (f x).noLongerAcceptsItems = true) :
    ReceivedOrClosed (updateNpc s id f) id := by
  intro m hm hmid
  rcases List.mem_map.mp hm with ⟨x, hx, hgx⟩
  by_cases hxid : (x.npcId == id) = true
  · rw [if_pos hxid] at hgx
    subst hgx
    exact hest x
  · rw [if_neg hxid] at hgx
    subst hgx
    exact absurd (by simpa using hmid) hxid

theorem roc_incrementGood (s : GameState) (id : Nat)
    (hr : ReceivedOrClosed s id) : ReceivedOrClosed (incrementGoodDelivered s) id := by
  unfold incrementGoodDelivered
  split
  · exact roc_filter _ _ id _ rfl hr
  · exact roc_of_npcs_eq s _ id rfl hr

theorem roc_incrementBad (s : GameState) (id : Nat)
    (hr : ReceivedOrClosed s id) : ReceivedOrClosed (incrementBadDelivered s) id := by
  unfold incrementBadDelivered
  split
  · exact roc_filter _ _ id _ rfl hr
  · exact roc_of_npcs_eq s _ id rfl hr

theorem roc_sendNPCBack (s : GameState) (id id2 : Nat) (v : Bool)
    (hr : ReceivedOrClosed s id) : ReceivedOrClosed (sendNPCBack v s id2) id := by
  unfold sendNPCBack
  cases hfind : findNpc s id2
  · exact hr
  · exact roc_map s _ id _ rfl
      (fun x => by split <;> rfl) (fun x => by split <;> rfl) (fun x => by split <;> rfl) hr

/-- `sendNPCBack` never touches the scoreboard. -/
theorem sendNPCBack_good (v : Bool) (s : GameState) (id : Nat) :
    (sendNPCBack v s id).goodDelivered = s.goodDelivered := by
  unfold sendNPCBack
  cases hfind : findNpc s id <;> rfl

theorem sendNPCBack_bad (v : Bool) (s : GameState) (id : Nat) :
    (sendNPCBack v s id).badDelivered = s.badDelivered := by
  unfold sendNPCBack
  cases hfind : findNpc s id <;> rfl

/-- Once one of the refuse-latches holds for the NPC (or the game is over),
`giveItemToNPC` leaves the scoreboard unchanged. -/
theorem giveItem_no_score (s : GameState) (id : Nat) (t : ItemType) (errAt : Option Nat)
    (hP : ∀ m, findNpc s id = some m →
      m.hasReceivedItem = true ∨ m.noLongerAcceptsItems = true) :
    (giveItemToNPC s id t errAt).goodDelivered = s.goodDelivered ∧
    (giveItemToNPC s id t errAt).badDelivered = s.badDelivered := by
  unfold giveItemToNPC
  cases hfind : findNpc s id with
  | none => exact ⟨rfl, rfl⟩
  | some m =>
    simp only
    by_cases hover : s.isGameOver = true
    · rw [if_pos hover]
      exact ⟨rfl, rfl⟩
    · rw [if_neg hover]
      by_cases hno : m.noLongerAcceptsItems = true
      · rw [if_pos hno]
        exact ⟨rfl, rfl⟩
      · rw [if_neg hno]
        rcases hP m hfind with hrecv | hrecv
        · rw [if_pos hrecv]
          exact ⟨rfl, rfl⟩
        · exact absurd hrecv hno

/-- Once one of the refuse-latches holds for the NPC (or the game is over),
an interact trigger leaves the scoreboard unchanged. -/
theorem interact_no_score (s : GameState) (id : Nat) (errAt : Option Nat)
    (hP : ∀ m, findNpc s id = some m →
      m.hasReceivedItem = true ∨ m.noLongerAcceptsItems = true) :
    (handleNPCInteraction s id errAt).goodDelivered = s.goodDelivered ∧
    (handleNPCInteraction s id errAt).badDelivered = s.badDelivered := by
  unfold handleNPCInteraction
  cases hfind : findNpc s id with
  | none => exact ⟨rfl, rfl⟩
  | some m =>
    simp only
    by_cases hint : m.interactionActive = true
    · rw [if_pos hint]
      cases hheld : s.playerHeld with
      | none => exact ⟨rfl, rfl⟩
      | some t => exact giveItem_no_score s id t errAt hP
    · rw [if_neg hint]
      exact ⟨rfl, rfl⟩

theorem roc_findNpc (s : GameState) (id : Nat) (hr : ReceivedOrClosed s id) :
    ∀ m, findNpc s id = some m →
      m.hasReceivedItem = true ∨ m.noLongerAcceptsItems = true := by
  intro m hm
  exact hr m (List.mem_of_find?_eq_some hm) (findNpc_id_eq s id m hm)

theorem roc_ite (c : Prop) [Decidable c] (s1 s2 : GameState) (id : Nat)
    (h1 : ReceivedOrClosed s1 id) (h2 : ReceivedOrClosed s2 id) :
    ReceivedOrClosed (if c then s1 else s2) id := by
  split
  · exact h1
  · exact h2

theorem roc_heldChange (s : GameState) (o : Option ItemType) (id : Nat)
    (h : ReceivedOrClosed s id) : ReceivedOrClosed { s with playerHeld := o } id :=
  roc_of_npcs_eq s _ id rfl h

theorem roc_clearUI (s : GameState) (id : Nat)
    (h : ReceivedOrClosed s id) : ReceivedOrClosed (clearUIMessage s) id :=
  roc_of_npcs_eq s _ id rfl h

theorem roc_showUI (m : String) (s : GameState) (id : Nat)
    (h : ReceivedOrClosed s id) : ReceivedOrClosed (showUIMessage m s) id :=
  roc_of_npcs_eq s _ id rfl h

theorem roc_updateNpc_item (s : GameState) (id : Nat) (t : ItemType)
    (h : ReceivedOrClosed s id) :
    ReceivedOrClosed (updateNpc s id (fun n => { n with npcHeldItem := some t })) id :=
  roc_map s _ id _ rfl
    (fun x => by split <;> rfl) (fun x => by split <;> rfl) (fun x => by split <;> rfl) h

/-- The `try` block preserves the refuse-latches of the NPC it serves. -/
theorem roc_giveItemTry (s : GameState) (id : Nat) (t : ItemType) (isElf : Bool)
    (errAt : Option Nat) (hr : ReceivedOrClosed s id) :
    ReceivedOrClosed (giveItemTry s id t isElf errAt).1 id := by
  unfold giveItemTry
  simp only
  apply roc_ite
  · apply roc_updateNpc_item
    apply roc_ite
    · apply roc_ite
      · apply roc_incrementGood
        apply roc_ite
        · apply roc_clearUI
          apply roc_ite
          · exact roc_heldChange s none id hr
          · exact hr
        · apply roc_ite
          · exact roc_heldChange s none id hr
          · exact hr
      · apply roc_showUI
        apply roc_incrementBad
        apply roc_ite
        · apply roc_clearUI
          apply roc_ite
          · exact roc_heldChange s none id hr
          · exact hr
        · apply roc_ite
          · exact roc_heldChange s none id hr
          · exact hr
    · apply roc_ite
      · apply roc_clearUI
        apply roc_ite
        · exact roc_heldChange s none id hr
        · exact hr
      · apply roc_ite
        · exact roc_heldChange s none id hr
        · exact hr
  · apply roc_ite
    · apply roc_ite
      · apply roc_incrementGood
        apply roc_ite
        · apply roc_clearUI
          apply roc_ite
          · exact roc_heldChange s none id hr
          · exact hr
        · apply roc_ite
          · exact roc_heldChange s none id hr
          · exact hr
      · apply roc_showUI
        apply roc_incrementBad
        apply roc_ite
        · apply roc_clearUI
          apply roc_ite
          · exact roc_heldChange s none id hr
          · exact hr
        · apply roc_ite
          · exact roc_heldChange s none id hr
          · exact hr
    · apply roc_ite
      · apply roc_clearUI
        apply roc_ite
        · exact roc_heldChange s none id hr
        · exact hr
      · apply roc_ite
        · exact roc_heldChange s none id hr
        · exact hr

/-- After an open delivery resolved, the has-received latch holds for every
record of the NPC. -/
theorem roc_giveItem (s : GameState) (id : Nat) (t : ItemType) (n : NPC)
    (errAt : Option Nat)
    (hf : findNpc s id = some n) (hgo : s.isGameOver = false)
    (hno : n.noLongerAcceptsItems = false) (hrecv : n.hasReceivedItem = false) :
    ReceivedOrClosed (giveItemToNPC s id t errAt) id := by
  unfold giveItemToNPC
  simp only [hf]
  rw [if_neg (by simp [hgo]), if_neg (by simp [hno]), if_neg (by simp [hrecv])]
  have h1 : ReceivedOrClosed
      (updateNpc s id (fun m => { m with hasReceivedItem := true })) id :=
    roc_establish s id _ (fun x => Or.inl rfl)
  have h2 := roc_giveItemTry _ id t n.isElf errAt h1
  cases hfind2 : findNpc
      (giveItemTry (updateNpc s id (fun m => { m with hasReceivedItem := true }))
        id t n.isElf errAt).1 id
  · simpa [hfind2] using h2
  · simp only [hfind2]
    exact roc_sendNPCBack _ id id _ h2

/-- Counters of an open delivery are those produced by the `try` block. -/
theorem giveItem_open_counters (s : GameState) (id : Nat) (t : ItemType) (n : NPC)
    (errAt : Option Nat)
    (hf : findNpc s id = some n) (hgo : s.isGameOver = false)
    (hno : n.noLongerAcceptsItems = false) (hrecv : n.hasReceivedItem = false) :
    (giveItemToNPC s id t errAt).goodDelivered
      = (giveItemTry (updateNpc s id (fun m => { m with hasReceivedItem := true }))
          id t n.isElf errAt).1.goodDelivered ∧
    (giveItemToNPC s id t errAt).badDelivered
      = (giveItemTry (updateNpc s id (fun m => { m with hasReceivedItem := true }))
          id t n.isElf errAt).1.badDelivered := by
  unfold giveItemToNPC
  simp only [hf]
  rw [if_neg (by simp [hgo]), if_neg (by simp [hno]), if_neg (by simp [hrecv])]
  cases hfind2 : findNpc
      (giveItemTry (updateNpc s id (fun m => { m with hasReceivedItem := true }))
        id t n.isElf errAt).1 id
  · simp [hfind2]
  · simp [hfind2, sendNPCBack_good, sendNPCBack_bad]

/-- With no injected error, the `try` block scores exactly one delivery,
matching iff the item type equals the race's expected type. -/
theorem giveItemTry_none_counters (s : GameState) (id : Nat) (t : ItemType)
    (isElf : Bool) :
    ((giveItemTry s id t isElf none).1.goodDelivered
      = (if t = expectedItemType isElf then s.goodDelivered + 1 else s.goodDelivered)) ∧
    ((giveItemTry s id t isElf none).1.badDelivered
      = (if t = expectedItemType isElf then s.badDelivered else s.badDelivered + 1)) := by
  unfold giveItemTry
  by_cases hv : t = expectedItemType isElf
  · simp [hv, clearUIMessage, showUIMessage, updateNpc,
      incrementGood_good, incrementGood_bad]
  · simp [hv, clearUIMessage, showUIMessage, updateNpc,
      incrementBad_good, incrementBad_bad]

/-! ### C1 -/

/-- C1: interacting with a Waiting NPC while holding an item scores exactly
one delivery: a good one iff the held type is the race-expected type (elf
expects potion, orc expects axe, anything else is wrong), a bad one otherwise;
and any further interact trigger on the same NPC — with any item in hand —
changes neither counter again, because the has-received-item latch makes the
first trigger win. -/
theorem c1_delivery_scoring (s : GameState) (id : Nat) (n : NPC) (t : ItemType)
    (hf : findNpc s id = some n)
    (hph : n.phase = NpcPhase.waiting)
    (hint : n.interactionActive = true)
    (hrecv : n.hasReceivedItem = false)
    (hno : n.noLongerAcceptsItems = false)
    (hgo : s.isGameOver = false)
    (hheld : s.playerHeld = some t) :
    (t = expectedItemType n.isElf →
      (handleNPCInteraction s id none).goodDelivered = s.goodDelivered + 1 ∧
      (handleNPCInteraction s id none).badDelivered = s.badDelivered) ∧
    (t ≠ expectedItemType n.isElf →
      (handleNPCInteraction s id none).badDelivered = s.badDelivered + 1 ∧
      (handleNPCInteraction s id none).goodDelivered = s.goodDelivered) ∧
    (∀ t2 : ItemType,
      (handleNPCInteraction
        { handleNPCInteraction s id none with playerHeld := some t2 } id none).goodDelivered
        = (handleNPCInteraction s id none).goodDelivered ∧
      (handleNPCInteraction
        { handleNPCInteraction s id none with playerHeld := some t2 } id none).badDelivered
        = (handleNPCInteraction s id none).badDelivered) := by
  have hred : handleNPCInteraction s id none = giveItemToNPC s id t none := by
    unfold handleNPCInteraction
    simp only [hf]
    rw [if_pos hint, hheld]
  have hopen := giveItem_open_counters s id t n none hf hgo hno hrecv
  have htry := giveItemTry_none_counters
    (updateNpc s id (fun m => { m with hasReceivedItem := true })) id t n.isElf
  have hroc := roc_giveItem s id t n none hf hgo hno hrecv
  refine ⟨?_, ?_, ?_⟩
  · intro hv
    rw [hred]
    constructor
    · rw [hopen.1, htry.1, if_pos hv, updateNpc_good]
    · rw [hopen.2, htry.2, if_pos hv, updateNpc_bad]
  · intro hv
    rw [hred]
    constructor
    · rw [hopen.2, htry.2, if_neg hv, updateNpc_bad]
    · rw [hopen.1, htry.1, if_neg hv, updateNpc_good]
  · intro t2
    rw [hred]
    have hroc2 : ReceivedOrClosed
        { giveItemToNPC s id t none with playerHeld := some t2 } id :=
      roc_of_npcs_eq _ _ id rfl hroc
    have hns := interact_no_score
      { giveItemToNPC s id t none with playerHeld := some t2 } id none
      (roc_findNpc _ id hroc2)
    exact ⟨hns.1, hns.2⟩

/-- Witness for C1: delivering the potion the player holds in `demoState` to
the waiting elf NPC 0. -/
theorem c1_witness :
    (ItemType.potion = expectedItemType demoWaitingNpc.isElf →
      (handleNPCInteraction demoState 0 none).goodDelivered = demoState.goodDelivered + 1 ∧
      (handleNPCInteraction demoState 0 none).badDelivered = demoState.badDelivered) ∧
    (ItemType.potion ≠ expectedItemType demoWaitingNpc.isElf →
      (handleNPCInteraction demoState 0 none).badDelivered = demoState.badDelivered + 1 ∧
      (handleNPCInteraction demoState 0 none).goodDelivered = demoState.goodDelivered) ∧
    (∀ t2 : ItemType,
      (handleNPCInteraction
        { handleNPCInteraction demoState 0 none with playerHeld := some t2 } 0 none).goodDelivered
        = (handleNPCInteraction demoState 0 none).goodDelivered ∧
      (handleNPCInteraction
        { handleNPCInteraction demoState 0 none with playerHeld := some t2 } 0 none).badDelivered
        = (handleNPCInteraction demoState 0 none).badDelivered) :=
  c1_delivery_scoring demoState 0 demoWaitingNpc ItemType.potion
    rfl rfl rfl rfl rfl rfl rfl

/-! ### C2 -/

/-- C2: when the countdown of a Waiting NPC elapses, one wait-timer tick sets
the no-longer-accepts-items latch, tears down the interaction surface, counts
exactly one bad delivery and moves the NPC into the goodbye sequence; a later
interact trigger — whatever the player then holds, and whatever happens during
its resolution — changes neither scoreboard counter, so expiry and delivery
cannot double-count. -/
theorem c2_timeout_exclusive (s : GameState) (id : Nat) (n : NPC) (dt : ℚ)
    (hf : findNpc s id = some n)
    (htimer : n.waitTimerActive = true)
    (hrecv : n.hasReceivedItem = false)
    (hexp : n.actualWaitTime ≤ n.waitElapsed + dt)
    (hthr : s.badDelivered + 1 < DELIVERED_TO_LOSE) :
    (∃ n1, findNpc (waitTimerTick s id dt) id = some n1 ∧
      n1.noLongerAcceptsItems = true ∧ n1.interactionActive = false ∧
      n1.phase = NpcPhase.goodbyeDelay) ∧
    (waitTimerTick s id dt).badDelivered = s.badDelivered + 1 ∧
    (waitTimerTick s id dt).goodDelivered = s.goodDelivered ∧
    (∀ (t2 : ItemType) (errAt : Option Nat),
      (handleNPCInteraction
        { waitTimerTick s id dt with playerHeld := some t2 } id errAt).goodDelivered
        = (waitTimerTick s id dt).goodDelivered ∧
      (handleNPCInteraction
        { waitTimerTick s id dt with playerHeld := some t2 } id errAt).badDelivered
        = (waitTimerTick s id dt).badDelivered) := by
  have hred : waitTimerTick s id dt
      = sendNPCBack false
          (incrementBadDelivered
            (updateNpc s id (fun m =>
              { m with waitElapsed := n.waitElapsed + dt, noLongerAcceptsItems := true,
                       interactionActive := false, waitTimerActive := false }))) id := by
    unfold waitTimerTick
    simp only [hf]
    rw [if_pos htimer, if_neg (by simp [hrecv]), if_pos hexp]
  have hfind2 : findNpc (updateNpc s id (fun m =>
      { m with waitElapsed := n.waitElapsed + dt, noLongerAcceptsItems := true,
               interactionActive := false, waitTimerActive := false })) id
      = some { n with waitElapsed := n.waitElapsed + dt, noLongerAcceptsItems := true,
                      interactionActive := false, waitTimerActive := false } :=
    findNpc_updateNpc_some s id _ n (fun m => rfl) hf
  have hinc : incrementBadDelivered
      (updateNpc s id (fun m =>
        { m with waitElapsed := n.waitElapsed + dt, noLongerAcceptsItems := true,
                 interactionActive := false, waitTimerActive := false }))
      = { updateNpc s id (fun m =>
            { m with waitElapsed := n.waitElapsed + dt, noLongerAcceptsItems := true,
                     interactionActive := false, waitTimerActive := false })
          with badDelivered := s.badDelivered + 1 } := by
    rw [incrementBad_of_lt _ (by rw [updateNpc_bad]; exact hthr), updateNpc_bad]
  have hroc : ReceivedOrClosed (waitTimerTick s id dt) id := by
    rw [hred]
    apply roc_sendNPCBack
    apply roc_incrementBad
    exact roc_establish s id _ (fun x => Or.inr rfl)
  constructor
  · rw [hred, hinc]
    unfold sendNPCBack
    rw [show findNpc { updateNpc s id (fun m =>
          { m with waitElapsed := n.waitElapsed + dt, noLongerAcceptsItems := true,
                   interactionActive := false, waitTimerActive := false })
          with badDelivered := s.badDelivered + 1 } id
        = some { n with waitElapsed := n.waitElapsed + dt, noLongerAcceptsItems := true,
                        interactionActive := false, waitTimerActive := false } from hfind2]
    refine ⟨_, findNpc_updateNpc_some _ id _ _ (fun m => rfl) hfind2, rfl, rfl, rfl⟩
  refine ⟨?_, ?_, ?_⟩
  · rw [hred, sendNPCBack_bad, hinc]
  · rw [hred, sendNPCBack_good, hinc]
    rw [show ({ updateNpc s id (fun m =>
        { m with waitElapsed := n.waitElapsed + dt, noLongerAcceptsItems := true,
                 interactionActive := false, waitTimerActive := false })
        with badDelivered := s.badDelivered + 1 } : GameState).goodDelivered
      = s.goodDelivered from rfl]
  · intro t2 errAt
    exact interact_no_score _ id errAt
      (roc_findNpc _ id (roc_heldChange _ (some t2) id hroc))

/-- Witness for C2: the countdown of NPC 0 in `demoState` expires on a 20 s
tick, and a subsequent interact with an axe in hand does not double-count. -/
theorem c2_witness :
    (∃ n1, findNpc (waitTimerTick demoState 0 20) 0 = some n1 ∧
      n1.noLongerAcceptsItems = true ∧ n1.interactionActive = false ∧
      n1.phase = NpcPhase.goodbyeDelay) ∧
    (waitTimerTick demoState 0 20).badDelivered = demoState.badDelivered + 1 ∧
    (waitTimerTick demoState 0 20).goodDelivered = demoState.goodDelivered ∧
    (∀ (t2 : ItemType) (errAt : Option Nat),
      (handleNPCInteraction
        { waitTimerTick demoState 0 20 with playerHeld := some t2 } 0 errAt).goodDelivered
        = (waitTimerTick demoState 0 20).goodDelivered ∧
      (handleNPCInteraction
        { waitTimerTick demoState 0 20 with playerHeld := some t2 } 0 errAt).badDelivered
        = (waitTimerTick demoState 0 20).badDelivered) :=
  c2_timeout_exclusive demoState 0 demoWaitingNpc 20
    rfl rfl rfl (by simp [demoWaitingNpc]) (by decide)

/-! ### C8 -/

/-- After `freeSpot`, every spot with the freed id is unoccupied. -/
theorem freeSpot_frees (spots : List Spot) (sid : Nat) :
    ∀ sp ∈ freeSpot spots sid, sp.id = sid → sp.occupied = false := by
  unfold freeSpot
  cases hfind : spots.find? (fun sp => sp.id == sid) with
  | none =>
    intro sp hsp hid
    exact absurd (by simpa using hid) (List.find?_eq_none.mp hfind sp hsp)
  | some w =>
    intro sp hsp hid
    rcases List.mem_map.mp hsp with ⟨x, hx, hxe⟩
    by_cases hxid : (x.id == sid) = true
    · rw [if_pos hxid] at hxe
      subst hxe
      rfl
    · rw [if_neg hxid] at hxe
      subst hxe
      exact absurd (by simpa using hid) hxid

/-- Whatever error point is injected, the `try` block (with the session not
ending) leaves a record of the NPC present, at its original spot. -/
theorem giveItemTry_find (s : GameState) (id : Nat) (t : ItemType) (isElf : Bool)
    (errAt : Option Nat) (n' : NPC)
    (hg : s.goodDelivered + 1 < DELIVERED_TO_WIN)
    (hb : s.badDelivered + 1 < DELIVERED_TO_LOSE)
    (hf' : findNpc s id = some n') :
    ∃ n4, findNpc (giveItemTry s id t isElf errAt).1 id = some n4 ∧
      n4.spotId = n'.spotId := by
  have hincg : incrementGoodDelivered (clearUIMessage { s with playerHeld := none })
      = { clearUIMessage { s with playerHeld := none } with
          goodDelivered := s.goodDelivered + 1 } :=
    incrementGood_of_lt _ hg
  have hincb : incrementBadDelivered (clearUIMessage { s with playerHeld := none })
      = { clearUIMessage { s with playerHeld := none } with
          badDelivered := s.badDelivered + 1 } :=
    incrementBad_of_lt _ hb
  rcases errAt with _ | (_ | _ | _ | _ | _ | e)
  · -- no error: the whole block runs
    by_cases hv : t = expectedItemType isElf
    · simp only [giveItemTry, hv]
      simp [hincg]
      exact ⟨_, findNpc_updateNpc_some _ id _ n' (fun m => rfl) hf', rfl⟩
    · simp only [giveItemTry, hv]
      simp [hincb]
      exact ⟨_, findNpc_updateNpc_some _ id _ n' (fun m => rfl) hf', rfl⟩
  · -- error before the verdict: nothing ran
    exact ⟨n', hf', rfl⟩
  · -- error after the verdict, before the item removal
    exact ⟨n', hf', rfl⟩
  · -- error after the item removal
    exact ⟨n', hf', rfl⟩
  · -- error after the message clear
    exact ⟨n', hf', rfl⟩
  · -- error after the scoreboard increment
    by_cases hv : t = expectedItemType isElf
    · simp only [giveItemTry, hv]
      simp [hincg]
      exact ⟨n', hf', rfl⟩
    · simp only [giveItemTry, hv]
      simp [hincb]
      exact ⟨n', hf', rfl⟩
  · -- error only after the full block
    have h0 : decide (0 < e + 5) = true := decide_eq_true (by omega)
    have h1 : decide (1 < e + 5) = true := decide_eq_true (by omega)
    have h2 : decide (2 < e + 5) = true := decide_eq_true (by omega)
    have h3 : decide (3 < e + 5) = true := decide_eq_true (by omega)
    have h4 : decide (4 < e + 5) = true := decide_eq_true (by omega)
    by_cases hv : t = expectedItemType isElf
    · simp only [giveItemTry, hv]
      simp [h0, h1, h2, h3, h4, hincg]
      exact ⟨_, findNpc_updateNpc_some _ id _ n' (fun m => rfl) hf', rfl⟩
    · simp only [giveItemTry, hv]
      simp [h0, h1, h2, h3, h4, hincb]
      exact ⟨_, findNpc_updateNpc_some _ id _ n' (fun m => rfl) hf', rfl⟩

theorem giveItemTry_verdict_none (s : GameState) (id : Nat) (t : ItemType)
    (isElf : Bool) :
    (giveItemTry s id t isElf none).2 = decide (t = expectedItemType isElf) := by
  simp [giveItemTry]

theorem giveItemTry_verdict_err0 (s : GameState) (id : Nat) (t : ItemType)
    (isElf : Bool) :
    (giveItemTry s id t isElf (some 0)).2 = false := by
  simp [giveItemTry]

/-- C8: whenever delivery resolution runs on a Waiting NPC (guards passed,
item in hand, session not at a win/lose threshold), the NPC proceeds to the
goodbye/walk-out sequence no matter where an internal error interrupts the
`try` block, with its spot freed; the recorded verdict is the computed one on
a clean run and defaults to wrong/bad when the error hits before the verdict
computation. -/
theorem c8_resolution_always_exits (s : GameState) (id : Nat) (n : NPC)
    (t : ItemType) (errAt : Option Nat)
    (hf : findNpc s id = some n) (hgo : s.isGameOver = false)
    (hno : n.noLongerAcceptsItems = false) (hrecv : n.hasReceivedItem = false)
    (hg : s.goodDelivered + 1 < DELIVERED_TO_WIN)
    (hb : s.badDelivered + 1 < DELIVERED_TO_LOSE) :
    (∃ n1, findNpc (giveItemToNPC s id t errAt) id = some n1 ∧
      n1.phase = NpcPhase.goodbyeDelay ∧
      (errAt = some 0 → n1.verdictGood = false) ∧
      (errAt = none → n1.verdictGood = decide (t = expectedItemType n.isElf))) ∧
    (∀ sp ∈ (giveItemToNPC s id t errAt).spots, sp.id = n.spotId →
      sp.occupied = false) := by
  unfold giveItemToNPC
  simp only [hf]
  rw [if_neg (by simp [hgo]), if_neg (by simp [hno]), if_neg (by simp [hrecv])]
  have hf1 : findNpc (updateNpc s id (fun m => { m with hasReceivedItem := true })) id
      = some { n with hasReceivedItem := true } :=
    findNpc_updateNpc_some s id _ n (fun m => rfl) hf
  obtain ⟨n4, hfind4, hspot4⟩ :=
    giveItemTry_find (updateNpc s id (fun m => { m with hasReceivedItem := true }))
      id t n.isElf errAt { n with hasReceivedItem := true } hg hb hf1
  simp only [hfind4]
  unfold sendNPCBack
  simp only [hfind4]
  constructor
  · refine ⟨_, findNpc_updateNpc_some _ id _ n4 (fun m => rfl) hfind4, rfl, ?_, ?_⟩
    · intro heq
      subst heq
      rw [giveItemTry_verdict_err0]
    · intro heq
      subst heq
      rw [giveItemTry_verdict_none]
  · rw [updateNpc_spots]
    intro sp hsp hspid
    exact freeSpot_frees _ n4.spotId sp hsp (by rw [hspot4]; exact hspid)

/-- Witness for C8: delivering to the waiting NPC of `demoState` with an error
injected before the verdict computation. -/
theorem c8_witness :
    (∃ n1, findNpc (giveItemToNPC demoState 0 ItemType.potion (some 0)) 0 = some n1 ∧
      n1.phase = NpcPhase.goodbyeDelay ∧
      (some 0 = some 0 → n1.verdictGood = false) ∧
      (some 0 = none → n1.verdictGood
        = decide (ItemType.potion = expectedItemType demoWaitingNpc.isElf))) ∧
    (∀ sp ∈ (giveItemToNPC demoState 0 ItemType.potion (some 0)).spots,
      sp.id = demoWaitingNpc.spotId → sp.occupied = false) :=
  c8_resolution_always_exits demoState 0 demoWaitingNpc ItemType.potion (some 0)
    rfl rfl rfl rfl (by decide) (by decide)

/-! ### C6 -/

theorem find?_append_left (l1 l2 : List NPC) (p : NPC → Bool) (x : NPC)
    (h : l1.find? p = some x) : (l1 ++ l2).find? p = some x := by
  induction l1 with
  | nil => simp at h
  | cons a t ih =>
    rw [List.find?_cons] at h
    cases ha : p a
    · rw [ha] at h
      rw [List.cons_append, List.find?_cons, ha]
      exact ih h
    · rw [ha] at h
      rw [List.cons_append, List.find?_cons, ha]
      exact h

theorem find?_append_right (l1 l2 : List NPC) (p : NPC → Bool)
    (h : l1.find? p = none) : (l1 ++ l2).find? p = l2.find? p := by
  induction l1 with
  | nil => rfl
  | cons a t ih =>
    rw [List.find?_cons] at h
    cases ha : p a
    · rw [ha] at h
      rw [List.cons_append, List.find?_cons, ha]
      exact ih h
    · rw [ha] at h
      simp at h

theorem getFreeSpot_mem_free (spots : List Spot) (sp₀ : Spot)
    (h : getFreeSpot spots = some sp₀) : sp₀ ∈ spots ∧ sp₀.occupied = false := by
  refine ⟨List.mem_of_find?_eq_some h, ?_⟩
  have h2 := List.find?_some h
  simpa using h2

theorem find?_spot_eq (spots : List Spot) (sp₀ : Spot)
    (hnd : (spots.map Spot.id).Nodup) (hmem : sp₀ ∈ spots) :
    spots.find? (fun sp => sp.id == sp₀.id) = some sp₀ := by
  induction spots with
  | nil => simp at hmem
  | cons a t ih =>
    rw [List.map_cons] at hnd
    rcases List.mem_cons.mp hmem with heq | hmt
    · subst heq
      rw [List.find?_cons]
      simp
    · rw [List.find?_cons]
      cases ha : (a.id == sp₀.id)
      · exact ih (List.Nodup.of_cons hnd) hmt
      · exfalso
        have haid : a.id = sp₀.id := by simpa using ha
        have : sp₀.id ∈ t.map Spot.id := List.mem_map_of_mem Spot.id hmt
        rw [← haid] at this
        exact (List.nodup_cons.mp hnd).1 this

theorem occupySpot_of_free (spots : List Spot) (sp₀ : Spot)
    (hnd : (spots.map Spot.id).Nodup) (hmem : sp₀ ∈ spots)
    (hfree : sp₀.occupied = false) :
    occupySpot spots sp₀.id =
      (spots.map (fun t => if t.id == sp₀.id then { t with occupied := true } else t),
       true) := by
  unfold occupySpot
  simp only [find?_spot_eq spots sp₀ hnd hmem]
  rw [if_neg (by simp [hfree])]

theorem freeSpot_ids (spots : List Spot) (sid : Nat) :
    (freeSpot spots sid).map Spot.id = spots.map Spot.id := by
  unfold freeSpot
  cases hfind : spots.find? (fun sp => sp.id == sid)
  · rfl
  · rw [List.map_map]
    apply List.map_congr_left
    intro a ha
    simp only [Function.comp_apply]
    split <;> rfl

theorem sendNPCBack_eq (isGood : Bool) (s : GameState) (id : Nat) (n : NPC)
    (hf : findNpc s id = some n) :
    sendNPCBack isGood s id =
      updateNpc { s with spots := freeSpot s.spots n.spotId } id
        (fun m => { m with phase := NpcPhase.goodbyeDelay, phaseElapsed := 0,
                           verdictGood := isGood }) := by
  unfold sendNPCBack
  simp only [hf]

/-- One spawner tick that fires: the accumulator advances, the first free spot
is occupied, and exactly one NPC is created on it with the current index. -/
theorem spawnerTick_spawns (s : GameState) (dt : ℚ) (isElf : Bool) (sp₀ : Spot)
    (hsp : s.isSpawning = true)
    (hcond : (s.npcIndex : ℚ) * s.spawnInterval ≤ s.elapsedTime + dt * 1000)
    (hfree : getFreeSpot s.spots = some sp₀)
    (hnd : (s.spots.map Spot.id).Nodup) :
    spawnerTick s dt isElf =
      { s with elapsedTime := s.elapsedTime + dt * 1000,
               spots := s.spots.map (fun t =>
                 if t.id == sp₀.id then { t with occupied := true } else t),
               activeNPCs := s.activeNPCs ++ [s.npcIndex],
               npcs := s.npcs ++ [mkNPC s.npcIndex sp₀.id isElf],
               npcIndex := s.npcIndex + 1 } := by
  obtain ⟨hmem, hocc⟩ := getFreeSpot_mem_free s.spots sp₀ hfree
  unfold spawnerTick
  rw [if_pos hsp]
  have hfree' : getFreeSpot
      ({ s with elapsedTime := s.elapsedTime + dt * 1000 } : GameState).spots
      = some sp₀ := hfree
  simp only [hfree']
  rw [if_pos (show ((({ s with elapsedTime := s.elapsedTime + dt * 1000 } :
      GameState).npcIndex : ℚ) * ({ s with elapsedTime := s.elapsedTime + dt * 1000 } :
      GameState).spawnInterval ≤ ({ s with elapsedTime := s.elapsedTime + dt * 1000 } :
      GameState).elapsedTime) from hcond)]
  unfold createWalkingNPC
  rw [show occupySpot ({ s with elapsedTime := s.elapsedTime + dt * 1000 } :
      GameState).spots sp₀.id =
      (s.spots.map (fun t => if t.id == sp₀.id then { t with occupied := true } else t),
       true) from occupySpot_of_free s.spots sp₀ hnd hmem hocc]
  rfl

/-- C6: when a waiting NPC is sent back, its spot is freed at the very start
of the walk-out — the NPC is then still in the 100 ms pre-emote delay (goodbye
emote not yet played, return walk not begun) and still tracked — and a spawner
tick can immediately admit a new NPC bound to that same spot while the old one
is still walking out; despawning, by contrast, never touches the spots. -/
theorem c6_spot_freed_early (s : GameState) (id : Nat) (n : NPC) (isGood : Bool)
    (dt : ℚ) (isElf : Bool) (sp₀ : Spot)
    (hf : findNpc s id = some n)
    (hph : n.phase = NpcPhase.waiting)
    (hact : id ∈ s.activeNPCs)
    (hids : ∀ m ∈ s.npcs, m.npcId < s.npcIndex)
    (hsp : s.isSpawning = true)
    (hcond : (s.npcIndex : ℚ) * s.spawnInterval ≤ s.elapsedTime + dt * 1000)
    (hfree : getFreeSpot (sendNPCBack isGood s id).spots = some sp₀)
    (hsp0 : sp₀.id = n.spotId)
    (hnd : (s.spots.map Spot.id).Nodup) :
    (∃ n1, findNpc (sendNPCBack isGood s id) id = some n1 ∧
      n1.phase = NpcPhase.goodbyeDelay) ∧
    (∀ sp ∈ (sendNPCBack isGood s id).spots, sp.id = n.spotId →
      sp.occupied = false) ∧
    id ∈ (sendNPCBack isGood s id).activeNPCs ∧
    (∃ n2, findNpc (spawnerTick (sendNPCBack isGood s id) dt isElf) s.npcIndex
        = some n2 ∧ n2.spotId = n.spotId ∧ n2.phase = NpcPhase.walkingIn) ∧
    (∃ n1, findNpc (spawnerTick (sendNPCBack isGood s id) dt isElf) id = some n1 ∧
      n1.phase = NpcPhase.goodbyeDelay) ∧
    id ∈ (spawnerTick (sendNPCBack isGood s id) dt isElf).activeNPCs ∧
    (∀ (s' : GameState) (id' : Nat), (despawnNPC s' id').spots = s'.spots) := by
  have hback := sendNPCBack_eq isGood s id n hf
  have hfind1 : findNpc (sendNPCBack isGood s id) id
      = some { n with phase := NpcPhase.goodbyeDelay, phaseElapsed := 0,
                      verdictGood := isGood } := by
    rw [hback]
    exact findNpc_updateNpc_some _ id _ n (fun m => rfl) hf
  have hndback : ((sendNPCBack isGood s id).spots.map Spot.id).Nodup := by
    rw [hback, updateNpc_spots]
    show ((freeSpot s.spots n.spotId).map Spot.id).Nodup
    rw [freeSpot_ids]
    exact hnd
  have hspawned := spawnerTick_spawns (sendNPCBack isGood s id) dt isElf sp₀
    (by rw [hback]; exact hsp) (by rw [hback]; exact hcond) hfree hndback
  have hidsback : ∀ m ∈ (sendNPCBack isGood s id).npcs,
      m.npcId < (sendNPCBack isGood s id).npcIndex := by
    rw [hback]
    intro m hm
    rcases List.mem_map.mp hm with ⟨x, hx, hxe⟩
    have hlt := hids x hx
    subst hxe
    by_cases hxid : (x.npcId == id) = true
    · rw [if_pos hxid]
      exact hlt
    · rw [if_neg hxid]
      exact hlt
  refine ⟨⟨_, hfind1, rfl⟩, ?_, ?_, ?_, ?_, ?_, ?_⟩
  · rw [hback, updateNpc_spots]
    intro sp hsp' hspid
    exact freeSpot_frees s.spots n.spotId sp hsp' hspid
  · rw [hback, updateNpc_active]
    exact hact
  · refine ⟨mkNPC (sendNPCBack isGood s id).npcIndex sp₀.id isElf, ?_, ?_, rfl⟩
    · rw [hspawned]
      show ((sendNPCBack isGood s id).npcs ++
        [mkNPC (sendNPCBack isGood s id).npcIndex sp₀.id isElf]).find?
          (fun m => m.npcId == s.npcIndex) = _
      rw [find?_append_right]
      · rw [List.find?_cons]
        have : ((mkNPC (sendNPCBack isGood s id).npcIndex sp₀.id isElf).npcId
            == s.npcIndex) = true := by
          rw [show (sendNPCBack isGood s id).npcIndex = s.npcIndex from by
            rw [hback]; rfl]
          simp [mkNPC]
        rw [this]
      · apply List.find?_eq_none.mpr
        intro x hx
        have hlt := hidsback x hx
        rw [show (sendNPCBack isGood s id).npcIndex = s.npcIndex from by
          rw [hback]; rfl] at hlt
        simp only [beq_iff_eq]
        omega
    · exact hsp0
  · refine ⟨{ n with phase := NpcPhase.goodbyeDelay, phaseElapsed := 0,
                     verdictGood := isGood }, ?_, rfl⟩
    rw [hspawned]
    show ((sendNPCBack isGood s id).npcs ++
      [mkNPC (sendNPCBack isGood s id).npcIndex sp₀.id isElf]).find?
        (fun m => m.npcId == id) =
      some { n with phase := NpcPhase.goodbyeDelay, phaseElapsed := 0,
                    verdictGood := isGood }
    exact find?_append_left _ _ _ _ hfind1
  · rw [hspawned]
    show id ∈ (sendNPCBack isGood s id).activeNPCs ++ [(sendNPCBack isGood s id).npcIndex]
    apply List.mem_append_left
    rw [hback, updateNpc_active]
    exact hact
  · intro s' id'
    unfold despawnNPC
    cases hfind : findNpc s' id'
    · rfl
    · simp only
      split
      · rfl
      · rfl

/-- Witness for C6: NPC 0 of `demoState` is sent back pleased; the spawner
immediately re-admits NPC 2 into spot 0 while NPC 0 is still walking out. -/
theorem c6_witness :
    (∃ n1, findNpc (sendNPCBack true demoState 0) 0 = some n1 ∧
      n1.phase = NpcPhase.goodbyeDelay) ∧
    (∀ sp ∈ (sendNPCBack true demoState 0).spots, sp.id = demoWaitingNpc.spotId →
      sp.occupied = false) ∧
    0 ∈ (sendNPCBack true demoState 0).activeNPCs ∧
    (∃ n2, findNpc (spawnerTick (sendNPCBack true demoState 0) 0 false) 2
        = some n2 ∧ n2.spotId = demoWaitingNpc.spotId ∧
        n2.phase = NpcPhase.walkingIn) ∧
    (∃ n1, findNpc (spawnerTick (sendNPCBack true demoState 0) 0 false) 0 = some n1 ∧
      n1.phase = NpcPhase.goodbyeDelay) ∧
    0 ∈ (spawnerTick (sendNPCBack true demoState 0) 0 false).activeNPCs ∧
    (∀ (s' : GameState) (id' : Nat), (despawnNPC s' id').spots = s'.spots) :=
  c6_spot_freed_early demoState 0 demoWaitingNpc true 0 false
    { id := 0, occupied := false }
    rfl rfl (by decide) (by decide) rfl
    (by norm_num [demoState, NPC_SPAWN_INTERVAL]) (by decide) rfl (by decide)

/-- Witness for C7: resetting `demoState` mid-countdown. -/
theorem c7_witness :
    (removeAllNPCs demoState).spots
      = demoState.spots.map (fun sp => { sp with occupied := false }) ∧
    (removeAllNPCs demoState).activeNPCs = [] ∧
    (removeAllNPCs demoState).goodDelivered = demoState.goodDelivered ∧
    (removeAllNPCs demoState).badDelivered = demoState.badDelivered ∧
    findNpc (removeAllNPCs demoState) 0 = none ∧
    waitTimerTick (removeAllNPCs demoState) 0 5 = removeAllNPCs demoState :=
  c7_removeAll_clean demoState 0 5 (by decide)

/-! ### C4 -/

/-- A spawner tick that finds no free spot (or whose slot time has not come)
only advances the accumulator: no NPC is created and — unlike what the spec
asserts — the spawn index is left alone. -/
theorem spawnerTick_skip (s : GameState) (dt : ℚ) (isElf : Bool)
    (hsp : s.isSpawning = true)
    (hfree : getFreeSpot s.spots = none) :
    spawnerTick s dt isElf = { s with elapsedTime := s.elapsedTime + dt * 1000 } := by
  unfold spawnerTick
  rw [if_pos hsp]
  have hfree' : getFreeSpot
      ({ s with elapsedTime := s.elapsedTime + dt * 1000 } : GameState).spots
      = none := hfree
  simp only [hfree']
  split <;> rfl

theorem spawnerTick_notYet (s : GameState) (dt : ℚ) (isElf : Bool)
    (hsp : s.isSpawning = true)
    (hcond : s.elapsedTime + dt * 1000 < (s.npcIndex : ℚ) * s.spawnInterval) :
    spawnerTick s dt isElf = { s with elapsedTime := s.elapsedTime + dt * 1000 } := by
  unfold spawnerTick
  rw [if_pos hsp]
  rw [if_neg (show ¬((({ s with elapsedTime := s.elapsedTime + dt * 1000 } :
      GameState).npcIndex : ℚ) * ({ s with elapsedTime := s.elapsedTime + dt * 1000 } :
      GameState).spawnInterval ≤ ({ s with elapsedTime := s.elapsedTime + dt * 1000 } :
      GameState).elapsedTime) from not_le.mpr hcond)]

theorem createWalkingNPC_length (s : GameState) (i sid : Nat) (isElf : Bool) :
    (createWalkingNPC s i sid isElf).npcs.length ≤ s.npcs.length + 1 := by
  unfold createWalkingNPC
  simp only
  split
  · simp
  · omega

/-- C4 (amended): each spawner tick advances the elapsed-time accumulator by
the frame delta (in ms); when the accumulator has reached
`npcIndex * spawnInterval`, a free spot exists and spawning is enabled,
exactly one NPC is created, bound to the first free spot in id order, and the
index advances; at most one NPC is created per tick.  When no free spot
exists, the tick creates nothing and the index does not advance, so the
missed slot is retried on later ticks — once spots free up, spawns catch up at
up to one NPC per tick. -/
theorem c4_spawner_tick_amended (s : GameState) (dt : ℚ) (isElf : Bool) :
    (s.isSpawning = true →
      (spawnerTick s dt isElf).elapsedTime = s.elapsedTime + dt * 1000) ∧
    (s.isSpawning = false → spawnerTick s dt isElf = s) ∧
    (∀ sp₀ : Spot, s.isSpawning = true →
      (s.npcIndex : ℚ) * s.spawnInterval ≤ s.elapsedTime + dt * 1000 →
      getFreeSpot s.spots = some sp₀ →
      (s.spots.map Spot.id).Nodup →
      (spawnerTick s dt isElf).npcs = s.npcs ++ [mkNPC s.npcIndex sp₀.id isElf] ∧
      (spawnerTick s dt isElf).npcIndex = s.npcIndex + 1) ∧
    (s.isSpawning = true → getFreeSpot s.spots = none →
      (spawnerTick s dt isElf).npcs = s.npcs ∧
      (spawnerTick s dt isElf).npcIndex = s.npcIndex) ∧
    (spawnerTick s dt isElf).npcs.length ≤ s.npcs.length + 1 := by
  refine ⟨?_, ?_, ?_, ?_, ?_⟩
  · intro hsp
    unfold spawnerTick
    rw [if_pos hsp]
    simp only
    split
    · cases hfree : getFreeSpot
          ({ s with elapsedTime := s.elapsedTime + dt * 1000 } : GameState).spots
      · simp only [hfree]
      · simp only [hfree]
        unfold createWalkingNPC
        simp only
        split <;> rfl
    · rfl
  · intro hsp
    unfold spawnerTick
    rw [if_neg (by simp [hsp])]
  · intro sp₀ hsp hcond hfree hnd
    rw [spawnerTick_spawns s dt isElf sp₀ hsp hcond hfree hnd]
    exact ⟨rfl, rfl⟩
  · intro hsp hfree
    rw [spawnerTick_skip s dt isElf hsp hfree]
    exact ⟨rfl, rfl⟩
  · unfold spawnerTick
    simp only
    split
    · split
      · cases hfree : getFreeSpot
            ({ s with elapsedTime := s.elapsedTime + dt * 1000 } : GameState).spots
        · simp only [hfree]
          exact Nat.le_succ _
        · simp only [hfree]
          exact createWalkingNPC_length _ _ _ _
      · exact Nat.le_succ _
    · exact Nat.le_succ _

/-- Witness for the amended C4 at `demoState`: spot 2 is free and the slot
time has come, so the tick spawns exactly one NPC there and advances the
index. -/
theorem c4_witness :
    (spawnerTick demoState 2 true).elapsedTime = demoState.elapsedTime + 2 * 1000 ∧
    (spawnerTick demoState 2 true).npcs
      = demoState.npcs ++ [mkNPC demoState.npcIndex 2 true] ∧
    (spawnerTick demoState 2 true).npcIndex = demoState.npcIndex + 1 ∧
    (spawnerTick demoState 2 true).npcs.length ≤ demoState.npcs.length + 1 := by
  have h := c4_spawner_tick_amended demoState 2 true
  have h3 := h.2.2.1 { id := 2, occupied := false } rfl
    (by norm_num [demoState, NPC_SPAWN_INTERVAL]) (by decide) (by decide)
  exact ⟨h.1 rfl, h3.1, h3.2, h.2.2.2.2⟩

/-- The shape of a wait-timer tick on which the countdown expires. -/
theorem waitTimerTick_timeout_eq (s : GameState) (id : Nat) (n : NPC) (dt : ℚ)
    (hf : findNpc s id = some n) (htimer : n.waitTimerActive = true)
    (hrecv : n.hasReceivedItem = false)
    (hexp : n.actualWaitTime ≤ n.waitElapsed + dt) :
    waitTimerTick s id dt
      = sendNPCBack false
          (incrementBadDelivered
            (updateNpc s id (fun m =>
              { m with waitElapsed := n.waitElapsed + dt, noLongerAcceptsItems := true,
                       interactionActive := false, waitTimerActive := false }))) id := by
  unfold waitTimerTick
  simp only [hf]
  rw [if_pos htimer, if_neg (by simp [hrecv]), if_pos hexp]

/-- The shape of an arrival event on a walking-in NPC. -/
theorem npcArrive_eq (s : GameState) (id : Nat) (r : ℚ) (n : NPC)
    (hf : findNpc s id = some n) (hph : n.phase = NpcPhase.walkingIn) :
    npcArrive s id r
      = startWaitTimer
          (activateInteraction
            (updateNpc s id (fun m => { m with phase := NpcPhase.waiting })) id) id r := by
  unfold npcArrive
  simp only [hf]
  rw [if_pos hph]

/-- NPC `i` waiting at spot `i` after arriving with random roll 1/2 (the
deadline value is kept in the exact form `startWaitTimer` computes). -/
def c4w (i : Nat) (e : Bool) : NPC :=
  { mkNPC i i e with phase := NpcPhase.waiting, interactionActive := true,
                     waitTimerActive := true, waitElapsed := 0,
                     actualWaitTime :=
                       NPC_WAIT_TIME + (1/2 - 1/2) * 2 * NPC_WAIT_TIME_VARIATION }

/-- NPC `i` after its countdown expired on a 25 s tick. -/
def c4gone (i : Nat) (e : Bool) : NPC :=
  { c4w i e with waitElapsed := (c4w i e).waitElapsed + 25, noLongerAcceptsItems := true,
                 interactionActive := false, waitTimerActive := false,
                 phase := NpcPhase.goodbyeDelay, phaseElapsed := 0, verdictGood := false }

/-- The trace states of the C4 counterexample: three NPCs spawned at 2 s
intervals, two further ticks with all spots full, arrival of all three NPCs,
three countdown expiries, then two 1 ms ticks that both spawn.  Time values
are kept in the exact arithmetic form the ticks compute (`c4A1.elapsedTime`
is 2000 ms, `c4A5.elapsedTime` 10000 ms, and so on). -/
def c4A1 : GameState :=
  { spots := [{ id := 0, occupied := true }, { id := 1, occupied := false },
              { id := 2, occupied := false }],
    npcIndex := 1, elapsedTime := 0 + 2 * 1000, spawnInterval := NPC_SPAWN_INTERVAL,
    isSpawning := true, activeNPCs := [0], npcs := [mkNPC 0 0 true],
    goodDelivered := 0, badDelivered := 0, isGameOver := false,
    playerHeld := none, uiMessage := "" }

def c4A2 : GameState :=
  { c4A1 with spots := [{ id := 0, occupied := true }, { id := 1, occupied := true },
                        { id := 2, occupied := false }],
              npcIndex := 2, elapsedTime := c4A1.elapsedTime + 2 * 1000,
              activeNPCs := [0, 1], npcs := [mkNPC 0 0 true, mkNPC 1 1 true] }

def c4A3 : GameState :=
  { c4A2 with spots := [{ id := 0, occupied := true }, { id := 1, occupied := true },
                        { id := 2, occupied := true }],
              npcIndex := 3, elapsedTime := c4A2.elapsedTime + 2 * 1000,
              activeNPCs := [0, 1, 2],
              npcs := [mkNPC 0 0 true, mkNPC 1 1 true, mkNPC 2 2 false] }

def c4A4 : GameState := { c4A3 with elapsedTime := c4A3.elapsedTime + 2 * 1000 }

def c4A5 : GameState := { c4A4 with elapsedTime := c4A4.elapsedTime + 2 * 1000 }

def c4B1 : GameState :=
  { c4A5 with npcs := [c4w 0 true, mkNPC 1 1 true, mkNPC 2 2 false] }

def c4B2 : GameState :=
  { c4A5 with npcs := [c4w 0 true, c4w 1 true, mkNPC 2 2 false] }

def c4B3 : GameState :=
  { c4A5 with npcs := [c4w 0 true, c4w 1 true, c4w 2 false] }

def c4C1 : GameState :=
  { c4B3 with spots := [{ id := 0, occupied := false }, { id := 1, occupied := true },
                        { id := 2, occupied := true }],
              npcs := [c4gone 0 true, c4w 1 true, c4w 2 false], badDelivered := 1 }

def c4C2 : GameState :=
  { c4B3 with spots := [{ id := 0, occupied := false }, { id := 1, occupied := false },
                        { id := 2, occupied := true }],
              npcs := [c4gone 0 true, c4gone 1 true, c4w 2 false], badDelivered := 2 }

def c4C3 : GameState :=
  { c4B3 with spots := [{ id := 0, occupied := false }, { id := 1, occupied := false },
                        { id := 2, occupied := false }],
              npcs := [c4gone 0 true, c4gone 1 true, c4gone 2 false], badDelivered := 3 }

def c4D1 : GameState :=
  { c4C3 with spots := [{ id := 0, occupied := true }, { id := 1, occupied := false },
                        { id := 2, occupied := false }],
              elapsedTime := c4C3.elapsedTime + 1/1000 * 1000, npcIndex := 4,
              activeNPCs := [0, 1, 2, 3],
              npcs := [c4gone 0 true, c4gone 1 true, c4gone 2 false, mkNPC 3 0 true] }

def c4D2 : GameState :=
  { c4D1 with spots := [{ id := 0, occupied := true }, { id := 1, occupied := true },
                        { id := 2, occupied := false }],
              elapsedTime := c4D1.elapsedTime + 1/1000 * 1000, npcIndex := 5,
              activeNPCs := [0, 1, 2, 3, 4],
              npcs := [c4gone 0 true, c4gone 1 true, c4gone 2 false, mkNPC 3 0 true,
                       mkNPC 4 1 true] }

/-- Counterexample to C4 as stated.  In the reachable state `c4A5` all three
spots are occupied, the next-spawn index is 3 and 10 s of wall-clock time have
accumulated (slots 3 and 4 were skipped).  A further full-spot tick advances
only the clock: the index stays 3, so the missed slots are NOT "never retried
later" and the index does NOT "advance in wall-clock terms".  Once the three
countdowns expire and free the spots (state `c4C3`, still index 3), two
spawner ticks only 1 ms apart EACH create an NPC (index 3 → 5, three NPCs →
five), even though the spawn interval is 2000 ms: a catch-up burst caused by a
burst of freed spots, exactly what the claim denies. -/
theorem c4_counterexample :
    Reachable c4A5 ∧ Reachable c4D2 ∧
    getFreeSpot c4A5.spots = none ∧
    (spawnerTick c4A5 2 true).npcIndex = c4A5.npcIndex ∧
    (spawnerTick c4A5 2 true).npcs.length = c4A5.npcs.length ∧
    (spawnerTick c4A5 2 true).elapsedTime = c4A5.elapsedTime + 2 * 1000 ∧
    spawnerTick c4C3 (1/1000) true = c4D1 ∧
    spawnerTick c4D1 (1/1000) true = c4D2 ∧
    c4C3.npcIndex = 3 ∧ c4D1.npcIndex = 4 ∧ c4D2.npcIndex = 5 ∧
    c4C3.npcs.length = 3 ∧ c4D1.npcs.length = 4 ∧ c4D2.npcs.length = 5 := by
  have h1 : spawnerTick initialState 2 true = c4A1 := by
    rw [spawnerTick_spawns initialState 2 true { id := 0, occupied := false } rfl
      (by norm_num [initialState, NPC_SPAWN_INTERVAL]) (by decide) (by decide)]
    rfl
  have h2 : spawnerTick c4A1 2 true = c4A2 := by
    rw [spawnerTick_spawns c4A1 2 true { id := 1, occupied := false } rfl
      (by norm_num [c4A1, NPC_SPAWN_INTERVAL]) (by decide) (by decide)]
    rfl
  have h3 : spawnerTick c4A2 2 false = c4A3 := by
    rw [spawnerTick_spawns c4A2 2 false { id := 2, occupied := false } rfl
      (by norm_num [c4A1, c4A2, NPC_SPAWN_INTERVAL]) (by decide) (by decide)]
    rfl
  have h4 : spawnerTick c4A3 2 true = c4A4 := by
    rw [spawnerTick_skip c4A3 2 true rfl (by decide)]
    rfl
  have h5 : spawnerTick c4A4 2 true = c4A5 := by
    rw [spawnerTick_skip c4A4 2 true rfl (by decide)]
    rfl
  have hb1 : npcArrive c4A5 0 (1/2) = c4B1 := by
    rw [npcArrive_eq c4A5 0 (1/2) (mkNPC 0 0 true) rfl rfl]
    rfl
  have hb2 : npcArrive c4B1 1 (1/2) = c4B2 := by
    rw [npcArrive_eq c4B1 1 (1/2) (mkNPC 1 1 true) rfl rfl]
    rfl
  have hb3 : npcArrive c4B2 2 (1/2) = c4B3 := by
    rw [npcArrive_eq c4B2 2 (1/2) (mkNPC 2 2 false) rfl rfl]
    rfl
  have hc1 : waitTimerTick c4B3 0 25 = c4C1 := by
    rw [waitTimerTick_timeout_eq c4B3 0 (c4w 0 true) 25 rfl rfl rfl
      (by norm_num [c4w, mkNPC, NPC_WAIT_TIME, NPC_WAIT_TIME_VARIATION])]
    rfl
  have hc2 : waitTimerTick c4C1 1 25 = c4C2 := by
    rw [waitTimerTick_timeout_eq c4C1 1 (c4w 1 true) 25 rfl rfl rfl
      (by norm_num [c4w, mkNPC, NPC_WAIT_TIME, NPC_WAIT_TIME_VARIATION])]
    rfl
  have hc3 : waitTimerTick c4C2 2 25 = c4C3 := by
    rw [waitTimerTick_timeout_eq c4C2 2 (c4w 2 false) 25 rfl rfl rfl
      (by norm_num [c4w, mkNPC, NPC_WAIT_TIME, NPC_WAIT_TIME_VARIATION])]
    rfl
  have hd1 : spawnerTick c4C3 (1/1000) true = c4D1 := by
    rw [spawnerTick_spawns c4C3 (1/1000) true { id := 0, occupied := false } rfl
      (by norm_num [c4A1, c4A2, c4A3, c4A4, c4A5, c4B3, c4C3, NPC_SPAWN_INTERVAL])
      (by decide) (by decide)]
    rfl
  have hd2 : spawnerTick c4D1 (1/1000) true = c4D2 := by
    rw [spawnerTick_spawns c4D1 (1/1000) true { id := 1, occupied := false } rfl
      (by norm_num [c4A1, c4A2, c4A3, c4A4, c4A5, c4B3, c4C3, c4D1, NPC_SPAWN_INTERVAL])
      (by decide) (by decide)]
    rfl
  have r1 : Reachable c4A1 := by
    have hstep := Step.spawner initialState 2 true (by norm_num)
    rw [h1] at hstep
    exact Reachable.step Reachable.init hstep
  have r2 : Reachable c4A2 := by
    have hstep := Step.spawner c4A1 2 true (by norm_num)
    rw [h2] at hstep
    exact Reachable.step r1 hstep
  have r3 : Reachable c4A3 := by
    have hstep := Step.spawner c4A2 2 false (by norm_num)
    rw [h3] at hstep
    exact Reachable.step r2 hstep
  have r4 : Reachable c4A4 := by
    have hstep := Step.spawner c4A3 2 true (by norm_num)
    rw [h4] at hstep
    exact Reachable.step r3 hstep
  have r5 : Reachable c4A5 := by
    have hstep := Step.spawner c4A4 2 true (by norm_num)
    rw [h5] at hstep
    exact Reachable.step r4 hstep
  have rb1 : Reachable c4B1 := by
    have hstep := Step.arrive c4A5 0 (1/2) (by norm_num) (by norm_num)
    rw [hb1] at hstep
    exact Reachable.step r5 hstep
  have rb2 : Reachable c4B2 := by
    have hstep := Step.arrive c4B1 1 (1/2) (by norm_num) (by norm_num)
    rw [hb2] at hstep
    exact Reachable.step rb1 hstep
  have rb3 : Reachable c4B3 := by
    have hstep := Step.arrive c4B2 2 (1/2) (by norm_num) (by norm_num)
    rw [hb3] at hstep
    exact Reachable.step rb2 hstep
  have rc1 : Reachable c4C1 := by
    have hstep := Step.waitTick c4B3 0 25 (by norm_num)
    rw [hc1] at hstep
    exact Reachable.step rb3 hstep
  have rc2 : Reachable c4C2 := by
    have hstep := Step.waitTick c4C1 1 25 (by norm_num)
    rw [hc2] at hstep
    exact Reachable.step rc1 hstep
  have rc3 : Reachable c4C3 := by
    have hstep := Step.waitTick c4C2 2 25 (by norm_num)
    rw [hc3] at hstep
    exact Reachable.step rc2 hstep
  have rd1 : Reachable c4D1 := by
    have hstep := Step.spawner c4C3 (1/1000) true (by norm_num)
    rw [hd1] at hstep
    exact Reachable.step rc3 hstep
  have rd2 : Reachable c4D2 := by
    have hstep := Step.spawner c4D1 (1/1000) true (by norm_num)
    rw [hd2] at hstep
    exact Reachable.step rd1 hstep
  have hskip : spawnerTick c4A5 2 true = { c4A5 with elapsedTime := c4A5.elapsedTime + 2 * 1000 } := by
    rw [spawnerTick_skip c4A5 2 true rfl (by decide)]
  refine ⟨r5, rd2, by decide, ?_, ?_, ?_, hd1, hd2, rfl, rfl, rfl, rfl, rfl, rfl⟩
  · rw [hskip]
  · rw [hskip]
  · rw [hskip]

/-! ### C3: the spot-occupancy invariant over all reachable states -/

/-- An NPC currently holds its spot exactly while it is walking in or waiting
(the spot is released the moment `sendNPCBack` starts the walk-out). -/
def claimsSpot (n : NPC) : Bool :=
  n.phase == NpcPhase.walkingIn || n.phase == NpcPhase.waiting

/-- How many live NPCs hold the spot with the given id. -/
def claimantCount (s : GameState) (sid : Nat) : Nat :=
  s.npcs.countP (fun n => claimsSpot n && n.spotId == sid)

/-- C3's property: a spot is occupied exactly when one live NPC holds it, and
a free spot has no holder at all. -/
def SpotInvariant (s : GameState) : Prop :=
  ∀ sp ∈ s.spots, claimantCount s sp.id = (if sp.occupied then 1 else 0)

/-- The NPC-registry bookkeeping facts that make the spot property inductive:
every entity is tracked; entity ids are unique and below the spawn index;
after game over everything has been cleared; an armed wait timer or an
installed interaction surface pins down the NPC's phase.  None of these
mention the spot list. -/
def InvNpcs (s : GameState) : Prop :=
  (∀ n ∈ s.npcs, n.npcId ∈ s.activeNPCs)
  ∧ (s.npcs.map NPC.npcId).Nodup
  ∧ (∀ n ∈ s.npcs, n.npcId < s.npcIndex)
  ∧ (s.isGameOver = true → s.npcs = [] ∧ s.activeNPCs = [] ∧ s.isSpawning = false)
  ∧ (∀ n ∈ s.npcs, n.waitTimerActive = true → n.hasReceivedItem = false →
      n.phase = NpcPhase.waiting)
  ∧ (∀ n ∈ s.npcs, n.interactionActive = true →
      n.phase = NpcPhase.waiting ∨
        (n.phase = NpcPhase.goodbyeDelay ∧ n.hasReceivedItem = true))

/-- The inductive invariant: the spot property, the fixed spot ids, and the
registry bookkeeping. -/
def Inv (s : GameState) : Prop :=
  SpotInvariant s ∧ s.spots.map Spot.id = [0, 1, 2] ∧ InvNpcs s

theorem countP_map_ite (l : List NPC) (id : Nat) (f : NPC → NPC) (p : NPC → Bool)
    (n : NPC) (hf : l.find? (fun m => m.npcId == id) = some n)
    (hnd : (l.map NPC.npcId).Nodup) :
    (l.map (fun m => if m.npcId == id then f m else m)).countP p
        + (if p n = true then 1 else 0)
      = l.countP p + (if p (f n) = true then 1 else 0) := by
  induction l with
  | nil => simp at hf
  | cons a t ih =>
    rw [List.find?_cons] at hf
    rw [List.map_cons, List.nodup_cons] at hnd
    cases ha : a.npcId == id
    · rw [ha] at hf
      rw [List.map_cons, if_neg (by simp [ha]), List.countP_cons, List.countP_cons]
      have := ih hf hnd.2
      omega
    · rw [ha] at hf
      simp only [Option.some.injEq] at hf
      have haid : a.npcId = id := by simpa using ha
      have hnone : t.find? (fun m => m.npcId == id) = none := by
        apply List.find?_eq_none.mpr
        intro x hx hbeq
        have hxid : x.npcId = id := by simpa using hbeq
        apply hnd.1
        rw [haid, ← hxid]
        exact List.mem_map_of_mem NPC.npcId hx
      rw [List.map_cons, if_pos ha, npcMap_of_find?_none t id f hnone,
        List.countP_cons, List.countP_cons, ← hf]
      omega

theorem countP_map_congr (l : List NPC) (g : NPC → NPC) (p : NPC → Bool)
    (h : ∀ x ∈ l, p (g x) = p x) :
    (l.map g).countP p = l.countP p := by
  induction l with
  | nil => rfl
  | cons a t ih =>
    rw [List.map_cons, List.countP_cons, List.countP_cons,
      h a (List.mem_cons_self a t), ih (fun x hx => h x (List.mem_cons_of_mem a hx))]

theorem countP_filter_of_dropped (l : List NPC) (q p : NPC → Bool)
    (h : ∀ x ∈ l, ¬ q x = true → p x = false) :
    (l.filter q).countP p = l.countP p := by
  induction l with
  | nil => rfl
  | cons a t ih =>
    rw [List.countP_cons]
    cases hq : q a
    · rw [List.filter_cons_of_neg (by simp [hq])]
      rw [h a (List.mem_cons_self a t) (by simp [hq])]
      rw [ih (fun x hx => h x (List.mem_cons_of_mem a hx))]
      simp
    · rw [List.filter_cons_of_pos hq, List.countP_cons,
        ih (fun x hx => h x (List.mem_cons_of_mem a hx))]

theorem countP_append_npc (l1 l2 : List NPC) (p : NPC → Bool) :
    (l1 ++ l2).countP p = l1.countP p + l2.countP p := by
  rw [List.countP_append]

theorem eq_of_find?_nodup (l : List NPC) (id : Nat) (n x : NPC)
    (hf : l.find? (fun m => m.npcId == id) = some n)
    (hnd : (l.map NPC.npcId).Nodup)
    (hx : x ∈ l) (hxid : x.npcId = id) : x = n := by
  induction l with
  | nil => simp at hf
  | cons a t ih =>
    rw [List.find?_cons] at hf
    rw [List.map_cons, List.nodup_cons] at hnd
    cases ha : a.npcId == id
    · rw [ha] at hf
      rcases List.mem_cons.mp hx with heq | hmt
      · exfalso
        rw [heq] at hxid
        simp [hxid] at ha
      · exact ih hf hnd.2 hmt
    · rw [ha] at hf
      simp only [Option.some.injEq] at hf
      have haid : a.npcId = id := by simpa using ha
      rcases List.mem_cons.mp hx with heq | hmt
      · rw [heq]
        exact hf
      · exfalso
        apply hnd.1
        rw [haid, ← hxid]
        exact List.mem_map_of_mem NPC.npcId hmt

theorem spot_eq_of_mem_nodup (l : List Spot) (sp sq : Spot)
    (hnd : (l.map Spot.id).Nodup) (hsp : sp ∈ l) (hsq : sq ∈ l)
    (hid : sp.id = sq.id) : sp = sq := by
  induction l with
  | nil => simp at hsp
  | cons a t ih =>
    rw [List.map_cons, List.nodup_cons] at hnd
    rcases List.mem_cons.mp hsp with he1 | hm1 <;>
      rcases List.mem_cons.mp hsq with he2 | hm2
    · rw [he1, he2]
    · subst he1
      exact absurd (by rw [hid]; exact List.mem_map_of_mem Spot.id hm2) hnd.1
    · subst he2
      exact absurd (by rw [← hid]; exact List.mem_map_of_mem Spot.id hm1) hnd.1
    · exact ih hnd.2 hm1 hm2

theorem countP_pos_of_mem (l : List NPC) (p : NPC → Bool) (x : NPC)
    (hx : x ∈ l) (hp : p x = true) : 1 ≤ l.countP p := by
  induction l with
  | nil => simp at hx
  | cons a t ih =>
    rw [List.countP_cons]
    rcases List.mem_cons.mp hx with he | hm
    · rw [← he, hp]
      simp
    · have := ih hm
      omega

theorem npcMap_ids (l : List NPC) (id : Nat) (f : NPC → NPC)
    (hid : ∀ m, (f m).npcId = m.npcId) :
    (l.map (fun m => if m.npcId == id then f m else m)).map NPC.npcId
      = l.map NPC.npcId := by
  rw [List.map_map]
  apply List.map_congr_left
  intro a ha
  simp only [Function.comp_apply]
  split
  · exact hid a
  · rfl

theorem nodup_append_singleton (l : List Nat) (a : Nat)
    (h : l.Nodup) (ha : a ∉ l) : (l ++ [a]).Nodup := by
  induction l with
  | nil => simp
  | cons b t ih =>
    rw [List.cons_append, List.nodup_cons]
    rw [List.nodup_cons] at h
    refine ⟨?_, ih h.2 (fun hm => ha (List.mem_cons_of_mem b hm))⟩
    intro hmem
    rcases List.mem_append.mp hmem with h1 | h2
    · exact h.1 h1
    · have hba : b = a := by simpa using h2
      apply ha
      rw [← hba]
      exact List.mem_cons_self b t

theorem freeSpot_of_find?_none (spots : List Spot) (sid : Nat)
    (h : spots.find? (fun sp => sp.id == sid) = none) :
    freeSpot spots sid = spots := by
  unfold freeSpot
  rw [h]

theorem freeSpot_of_find?_some (spots : List Spot) (sid : Nat) (w : Spot)
    (h : spots.find? (fun sp => sp.id == sid) = some w) :
    freeSpot spots sid
      = spots.map (fun t => if t.id == sid then { t with occupied := false } else t) := by
  unfold freeSpot
  rw [h]

theorem spots_free_ids (spots : List Spot) :
    (spots.map (fun sp => { sp with occupied := false })).map Spot.id
      = spots.map Spot.id := by
  rw [List.map_map]
  apply List.map_congr_left
  intro a ha
  rfl

theorem claimantCount_def (s : GameState) (sid : Nat) :
    claimantCount s sid = s.npcs.countP (fun n => claimsSpot n && n.spotId == sid) := rfl

theorem claimantCount_updateNpc (s : GameState) (id : Nat) (f : NPC → NPC) (sid : Nat) :
    claimantCount (updateNpc s id f) sid
      = (s.npcs.map (fun m => if m.npcId == id then f m else m)).countP
          (fun n => claimsSpot n && n.spotId == sid) := rfl

/-- `Inv` only looks at the spots, the registry, the active list, the spawn
index and the two mode flags; any state agreeing there inherits it. -/
theorem inv_core (s s' : GameState)
    (hspots : s'.spots = s.spots) (hnpcs : s'.npcs = s.npcs)
    (hact : s'.activeNPCs = s.activeNPCs) (hidx : s'.npcIndex = s.npcIndex)
    (hgo : s'.isGameOver = s.isGameOver) (hspawn : s'.isSpawning = s.isSpawning)
    (h : Inv s) : Inv s' := by
  obtain ⟨h1, h2, h3, h4, h5, h6, h7, h8⟩ := h
  refine ⟨?_, ?_, ?_, ?_, ?_, ?_, ?_, ?_⟩
  · intro sp hmem
    rw [hspots] at hmem
    rw [claimantCount_def, hnpcs]
    exact h1 sp hmem
  · rw [hspots]
    exact h2
  · rw [hnpcs, hact]
    exact h3
  · rw [hnpcs]
    exact h4
  · rw [hnpcs, hidx]
    exact h5
  · rw [hgo, hnpcs, hact, hspawn]
    exact h6
  · rw [hnpcs]
    exact h7
  · rw [hnpcs]
    exact h8

/-- A state with an empty registry, an empty active list and every spot free
satisfies the invariant (provided spawning is off whenever the game is over). -/
theorem inv_cleared (s : GameState)
    (hn : s.npcs = []) (ha : s.activeNPCs = [])
    (hfree : ∀ sp ∈ s.spots, sp.occupied = false)
    (hids : s.spots.map Spot.id = [0, 1, 2])
    (hgo : s.isGameOver = true → s.isSpawning = false) : Inv s := by
  refine ⟨?_, hids, ?_, ?_, ?_, ?_, ?_, ?_⟩
  · intro sp hmem
    rw [hfree sp hmem, claimantCount_def, hn]
    rfl
  · intro x hx
    rw [hn] at hx
    simp at hx
  · rw [hn]
    simp
  · intro x hx
    rw [hn] at hx
    simp at hx
  · intro hg
    exact ⟨hn, ha, hgo hg⟩
  · intro x hx
    rw [hn] at hx
    simp at hx
  · intro x hx
    rw [hn] at hx
    simp at hx

theorem filter_not_contains (l : List NPC) (act : List Nat)
    (h : ∀ n ∈ l, n.npcId ∈ act) :
    l.filter (fun n => !(act.contains n.npcId)) = [] := by
  induction l with
  | nil => rfl
  | cons a t ih =>
    have hc : (act.contains a.npcId) = true :=
      List.elem_eq_true_of_mem (h a (List.mem_cons_self a t))
    rw [List.filter_cons_of_neg (by simp [hc, h a (List.mem_cons_self a t)])]
    exact ih (fun x hx => h x (List.mem_cons_of_mem a hx))

theorem npcs_filter_active (s : GameState)
    (h3 : ∀ n ∈ s.npcs, n.npcId ∈ s.activeNPCs) :
    s.npcs.filter (fun n => !(s.activeNPCs.contains n.npcId)) = [] :=
  filter_not_contains s.npcs s.activeNPCs h3

theorem findNpc_nil (s : GameState) (id : Nat) (h : s.npcs = []) :
    findNpc s id = none := by
  unfold findNpc
  rw [h]
  rfl

/-- The registry bookkeeping survives any per-NPC record update that keeps the
id and respects the phase pinning for the touched record. -/
theorem invNpcs_updateNpc (s : GameState) (id : Nat) (f : NPC → NPC) (n : NPC)
    (hfind : findNpc s id = some n)
    (hid : ∀ m, (f m).npcId = m.npcId)
    (h7 : (f n).waitTimerActive = true → (f n).hasReceivedItem = false →
      (f n).phase = NpcPhase.waiting)
    (h8 : (f n).interactionActive = true →
      (f n).phase = NpcPhase.waiting ∨
        ((f n).phase = NpcPhase.goodbyeDelay ∧ (f n).hasReceivedItem = true))
    (h : InvNpcs s) : InvNpcs (updateNpc s id f) := by
  obtain ⟨h3, h4, h5, h6, h7o, h8o⟩ := h
  have hnpcs : (updateNpc s id f).npcs
      = s.npcs.map (fun m => if m.npcId == id then f m else m) := rfl
  have heqn : ∀ m ∈ s.npcs, (m.npcId == id) = true → m = n :=
    fun m hm hb => eq_of_find?_nodup s.npcs id n m hfind h4 hm (by simpa using hb)
  refine ⟨?_, ?_, ?_, ?_, ?_, ?_⟩
  · intro x hx
    rw [hnpcs] at hx
    rcases List.mem_map.mp hx with ⟨m, hm, hme⟩
    have hxid : x.npcId = m.npcId := by
      rw [← hme]
      split
      · exact hid m
      · rfl
    show x.npcId ∈ s.activeNPCs
    rw [hxid]
    exact h3 m hm
  · rw [hnpcs, npcMap_ids s.npcs id f hid]
    exact h4
  · intro x hx
    rw [hnpcs] at hx
    rcases List.mem_map.mp hx with ⟨m, hm, hme⟩
    have hxid : x.npcId = m.npcId := by
      rw [← hme]
      split
      · exact hid m
      · rfl
    show x.npcId < s.npcIndex
    rw [hxid]
    exact h5 m hm
  · intro hgo
    obtain ⟨hn0, ha0, hs0⟩ := h6 hgo
    refine ⟨?_, ha0, hs0⟩
    rw [hnpcs, hn0]
    rfl
  · intro x hx hti hri
    rw [hnpcs] at hx
    rcases List.mem_map.mp hx with ⟨m, hm, hme⟩
    by_cases hb : (m.npcId == id) = true
    · rw [← hme, if_pos hb] at hti hri ⊢
      rw [heqn m hm hb] at hti hri ⊢
      exact h7 hti hri
    · rw [← hme, if_neg hb] at hti hri ⊢
      exact h7o m hm hti hri
  · intro x hx hia
    rw [hnpcs] at hx
    rcases List.mem_map.mp hx with ⟨m, hm, hme⟩
    by_cases hb : (m.npcId == id) = true
    · rw [← hme, if_pos hb] at hia ⊢
      rw [heqn m hm hb] at hia ⊢
      exact h8 hia
    · rw [← hme, if_neg hb] at hia ⊢
      exact h8o m hm hia

/-- The whole invariant survives a per-NPC update that keeps the id, the
spot claim and the spot binding of the touched record. -/
theorem inv_updateNpc (s : GameState) (id : Nat) (f : NPC → NPC) (n : NPC)
    (hfind : findNpc s id = some n)
    (hid : ∀ m, (f m).npcId = m.npcId)
    (hclaims : claimsSpot (f n) = claimsSpot n)
    (hspot : (f n).spotId = n.spotId)
    (h7 : (f n).waitTimerActive = true → (f n).hasReceivedItem = false →
      (f n).phase = NpcPhase.waiting)
    (h8 : (f n).interactionActive = true →
      (f n).phase = NpcPhase.waiting ∨
        ((f n).phase = NpcPhase.goodbyeDelay ∧ (f n).hasReceivedItem = true))
    (h : Inv s) : Inv (updateNpc s id f) := by
  obtain ⟨h1, h2, hN⟩ := h
  refine ⟨?_, h2, invNpcs_updateNpc s id f n hfind hid h7 h8 hN⟩
  intro sp hsp
  rw [claimantCount_updateNpc]
  rw [countP_map_congr]
  · exact h1 sp hsp
  · intro m hm
    by_cases hb : (m.npcId == id) = true
    · have hmn : m = n :=
        eq_of_find?_nodup s.npcs id n m hfind hN.2.1 hm (by simpa using hb)
      rw [if_pos hb, hmn, hclaims, hspot]
    · rw [if_neg hb]

/-- Ending the game clears the registry and the spots, which trivially
restores the invariant. -/
theorem inv_gameFinished (w : Bool) (s : GameState)
    (h2 : s.spots.map Spot.id = [0, 1, 2])
    (h3 : ∀ n ∈ s.npcs, n.npcId ∈ s.activeNPCs) :
    Inv (gameFinished w s) := by
  apply inv_cleared
  · show s.npcs.filter (fun n => !(s.activeNPCs.contains n.npcId)) = []
    exact npcs_filter_active s h3
  · rfl
  · show ∀ sp ∈ s.spots.map (fun sp => { sp with occupied := false }),
      sp.occupied = false
    intro sp hsp
    rcases List.mem_map.mp hsp with ⟨a, ha, hae⟩
    rw [← hae]
  · show (s.spots.map (fun sp => { sp with occupied := false })).map Spot.id
      = [0, 1, 2]
    rw [spots_free_ids]
    exact h2
  · intro _
    rfl

theorem inv_incrementGood (s : GameState) (h : Inv s) :
    Inv (incrementGoodDelivered s) := by
  unfold incrementGoodDelivered
  split
  · exact inv_gameFinished true _ h.2.1 h.2.2.1
  · exact inv_core s _ rfl rfl rfl rfl rfl rfl h

theorem inv_incrementBad (s : GameState) (h : Inv s) :
    Inv (incrementBadDelivered s) := by
  unfold incrementBadDelivered
  split
  · exact inv_gameFinished false _ h.2.1 h.2.2.1
  · exact inv_core s _ rfl rfl rfl rfl rfl rfl h

/-- Sending an NPC back preserves the invariant, provided the NPC (when it
still exists) currently claims its spot and its timer/interaction flags only
survive together with the received latch. -/
theorem inv_sendNPCBack (isGood : Bool) (s : GameState) (id : Nat)
    (h : Inv s)
    (hcond : ∀ n, findNpc s id = some n →
      claimsSpot n = true
        ∧ (n.waitTimerActive = false ∨ n.hasReceivedItem = true)
        ∧ (n.interactionActive = false ∨ n.hasReceivedItem = true)) :
    Inv (sendNPCBack isGood s id) := by
  cases hf : findNpc s id with
  | none =>
    unfold sendNPCBack
    simp only [hf]
    exact h
  | some n =>
    obtain ⟨hclaim, h7n, h8n⟩ := hcond n hf
    obtain ⟨h1, h2, hN⟩ := h
    rw [sendNPCBack_eq isGood s id n hf]
    have hnmem : n ∈ s.npcs := List.mem_of_find?_eq_some hf
    have hfnclaims :
        claimsSpot ({ n with phase := NpcPhase.goodbyeDelay, phaseElapsed := 0,
                             verdictGood := isGood } : NPC) = false := rfl
    have hiffalse : (if (false = true) then 1 else 0) = 0 := rfl
    have hiftrue : (if (true = true) then 1 else 0) = 1 := rfl
    refine ⟨?_, ?_, ?_⟩
    · -- the spot property
      intro sp hsp
      have hsp' : sp ∈ freeSpot s.spots n.spotId := hsp
      rw [claimantCount_updateNpc]
      have hkey := countP_map_ite s.npcs id
        (fun m => { m with phase := NpcPhase.goodbyeDelay, phaseElapsed := 0,
                           verdictGood := isGood })
        (fun m => claimsSpot m && m.spotId == sp.id) n hf hN.2.1
      simp only [hfnclaims, Bool.false_and, hiffalse, Nat.add_zero] at hkey
      cases hfs : s.spots.find? (fun q => q.id == n.spotId) with
      | none =>
        rw [freeSpot_of_find?_none s.spots n.spotId hfs] at hsp'
        have hne : ¬(sp.id == n.spotId) = true := List.find?_eq_none.mp hfs sp hsp'
        have hne' : (n.spotId == sp.id) = false := by
          simp only [beq_eq_false_iff_ne]
          intro hh
          exact hne (by simp [hh])
        simp only [hne', Bool.and_false, hiffalse, Nat.add_zero] at hkey
        rw [hkey]
        exact h1 sp hsp'
      | some w =>
        rw [freeSpot_of_find?_some s.spots n.spotId w hfs] at hsp'
        rcases List.mem_map.mp hsp' with ⟨a, hamem, hae⟩
        have hold := h1 a hamem
        rw [claimantCount_def] at hold
        by_cases haid : (a.id == n.spotId) = true
        · rw [if_pos haid] at hae
          have haid' : a.id = n.spotId := by simpa using haid
          have hid_eq : sp.id = a.id := by rw [← hae]
          have hocc_eq : sp.occupied = false := by rw [← hae]
          have hsn : (n.spotId == sp.id) = true := by
            rw [hid_eq, haid']
            simp
          simp only [hclaim, Bool.true_and, hsn, hiftrue] at hkey
          have hpos := countP_pos_of_mem s.npcs
            (fun m => claimsSpot m && m.spotId == sp.id) n hnmem
            (by show (claimsSpot n && (n.spotId == sp.id)) = true
                rw [hclaim, Bool.true_and, hsn])
          rw [← hid_eq] at hold
          rw [hocc_eq]
          simp only [hiffalse]
          cases hocc : a.occupied
          · rw [hocc] at hold
            simp only [hiffalse] at hold
            omega
          · rw [hocc] at hold
            simp only [hiftrue] at hold
            omega
        · rw [if_neg haid] at hae
          have hid_eq : sp.id = a.id := by rw [← hae]
          have hocc_eq : sp.occupied = a.occupied := by rw [← hae]
          have hane : ¬ a.id = n.spotId := by simpa using haid
          have hne' : (n.spotId == sp.id) = false := by
            simp only [beq_eq_false_iff_ne]
            rw [hid_eq]
            intro hh
            exact hane hh.symm
          simp only [hne', Bool.and_false, hiffalse, Nat.add_zero] at hkey
          rw [← hid_eq] at hold
          rw [hkey, hocc_eq]
          exact hold
    · -- the spot ids
      show (freeSpot s.spots n.spotId).map Spot.id = [0, 1, 2]
      rw [freeSpot_ids]
      exact h2
    · -- the registry bookkeeping
      have hf' : findNpc ({ s with spots := freeSpot s.spots n.spotId } : GameState) id
          = some n := hf
      apply invNpcs_updateNpc _ id
        (fun m => { m with phase := NpcPhase.goodbyeDelay, phaseElapsed := 0,
                           verdictGood := isGood })
        n hf' (fun m => rfl)
      · intro hti hri
        rcases h7n with hfalse | htrue
        · exact absurd hti (by simp [show n.waitTimerActive = false from hfalse])
        · exact absurd hri (by simp [show n.hasReceivedItem = true from htrue])
      · intro hia
        rcases h8n with hfalse | htrue
        · exact absurd hia (by simp [show n.interactionActive = false from hfalse])
        · exact Or.inr ⟨rfl, htrue⟩
      · exact hN

theorem inv_setHeld (s : GameState) (o : Option ItemType) (h : Inv s) :
    Inv (setHeld s o) :=
  inv_core s _ rfl rfl rfl rfl rfl rfl h

theorem inv_stopSpawning (s : GameState) (h : Inv s) : Inv (stopSpawning s) := by
  obtain ⟨h1, h2, h3, h4, h5, h6, h7, h8⟩ := h
  exact ⟨h1, h2, h3, h4, h5, fun hg => ⟨(h6 hg).1, (h6 hg).2.1, rfl⟩, h7, h8⟩

theorem inv_resetGame (s : GameState) (h : Inv s) : Inv (resetGame s) := by
  unfold resetGame
  by_cases hgo : s.isGameOver = true
  · rw [if_pos hgo]
    obtain ⟨hn0, ha0, _⟩ := h.2.2.2.2.2.1 hgo
    apply inv_cleared
    · show s.npcs = []
      exact hn0
    · show s.activeNPCs = []
      exact ha0
    · show ∀ sp ∈ s.spots.map (fun sp => { sp with occupied := false }),
        sp.occupied = false
      intro sp hsp
      rcases List.mem_map.mp hsp with ⟨a, ha, hae⟩
      rw [← hae]
    · show (s.spots.map (fun sp => { sp with occupied := false })).map Spot.id
        = [0, 1, 2]
      rw [spots_free_ids]
      exact h.2.1
    · intro hg
      exact Bool.noConfusion hg
  · rw [if_neg hgo]
    exact h

theorem inv_despawnNPC (s : GameState) (id : Nat) (h : Inv s) :
    Inv (despawnNPC s id) := by
  unfold despawnNPC
  cases hfx : findNpc s id with
  | none =>
    simp only [hfx]
    exact h
  | some n =>
    simp only [hfx]
    by_cases hph : n.phase = NpcPhase.returning
    · rw [if_pos hph]
      obtain ⟨h1, h2, h3, h4, h5, h6, h7, h8⟩ := h
      have heqn : ∀ m ∈ s.npcs, (m.npcId == id) = true → m = n :=
        fun m hm hb => eq_of_find?_nodup s.npcs id n m hfx h4 hm (by simpa using hb)
      refine ⟨?_, h2, ?_, ?_, ?_, ?_, ?_, ?_⟩
      · intro sp hsp
        have heq : claimantCount ({ s with
              npcs := s.npcs.filter (fun m => !(m.npcId == id)),
              activeNPCs := s.activeNPCs.erase id } : GameState) sp.id
            = (s.npcs.filter (fun m => !(m.npcId == id))).countP
                (fun m => claimsSpot m && m.spotId == sp.id) := rfl
        rw [heq, countP_filter_of_dropped]
        · exact h1 sp hsp
        · intro x hx hq
          have hb : (x.npcId == id) = true := by
            cases hxb : (x.npcId == id)
            · exact absurd (by simp [hxb]) hq
            · rfl
          rw [heqn x hx hb]
          simp [claimsSpot, hph]
      · intro x hx
        have hx' := List.mem_filter.mp hx
        have hne : x.npcId ≠ id := by
          have hq := hx'.2
          simp only [Bool.not_eq_true'] at hq
          simpa using hq
        show x.npcId ∈ s.activeNPCs.erase id
        rw [List.mem_erase_of_ne hne]
        exact h3 x hx'.1
      · show ((s.npcs.filter (fun m => !(m.npcId == id))).map NPC.npcId).Nodup
        exact List.Nodup.sublist (List.Sublist.map NPC.npcId (List.filter_sublist _)) h4
      · intro x hx
        exact h5 x (List.mem_filter.mp hx).1
      · intro hg
        obtain ⟨hn0, ha0, hs0⟩ := h6 hg
        refine ⟨?_, ?_, hs0⟩
        · show s.npcs.filter (fun m => !(m.npcId == id)) = []
          rw [hn0]
          rfl
        · show s.activeNPCs.erase id = []
          rw [ha0]
          rfl
      · intro x hx
        exact h7 x (List.mem_filter.mp hx).1
      · intro x hx
        exact h8 x (List.mem_filter.mp hx).1
    · rw [if_neg hph]
      exact h

theorem inv_goodbyeDelayTick (s : GameState) (id : Nat) (dt : ℚ) (h : Inv s) :
    Inv (goodbyeDelayTick s id dt) := by
  unfold goodbyeDelayTick
  cases hfx : findNpc s id with
  | none =>
    simp only [hfx]
    exact h
  | some n =>
    simp only [hfx]
    by_cases hph : n.phase = NpcPhase.goodbyeDelay
    · rw [if_pos hph]
      have hmem : n ∈ s.npcs := List.mem_of_find?_eq_some hfx
      show Inv (if (100 : ℚ) ≤ n.phaseElapsed + dt * 1000 then
          updateNpc s id (fun m =>
            { m with phase := NpcPhase.goodbyeEmote, phaseElapsed := 0,
                     interactionActive := false })
        else updateNpc s id (fun m => { m with phaseElapsed := n.phaseElapsed + dt * 1000 }))
      by_cases he : (100 : ℚ) ≤ n.phaseElapsed + dt * 1000
      · rw [if_pos he]
        refine inv_updateNpc s id
          (fun m => { m with phase := NpcPhase.goodbyeEmote, phaseElapsed := 0,
                             interactionActive := false })
          n hfx (fun m => rfl) ?_ rfl ?_ ?_ h
        · show claimsSpot ({ n with phase := NpcPhase.goodbyeEmote, phaseElapsed := 0,
                                    interactionActive := false } : NPC) = claimsSpot n
          have hcn : claimsSpot n = false := by
            unfold claimsSpot
            rw [hph]
            decide
          rw [hcn]
          rfl
        · intro hti hri
          exact absurd (h.2.2.2.2.2.2.1 n hmem hti hri) (by simp [hph])
        · intro hia
          exact absurd hia (by simp)
      · rw [if_neg he]
        refine inv_updateNpc s id
          (fun m => { m with phaseElapsed := n.phaseElapsed + dt * 1000 })
          n hfx (fun m => rfl) rfl rfl ?_ ?_ h
        · intro hti hri
          exact absurd (h.2.2.2.2.2.2.1 n hmem hti hri) (by simp [hph])
        · intro hia
          rcases h.2.2.2.2.2.2.2 n hmem hia with hw | ⟨hg, hr⟩
          · exact absurd hw (by simp [hph])
          · exact Or.inr ⟨hg, hr⟩
    · rw [if_neg hph]
      exact h

theorem inv_goodbyeEmoteTick (s : GameState) (id : Nat) (dt : ℚ) (h : Inv s) :
    Inv (goodbyeEmoteTick s id dt) := by
  unfold goodbyeEmoteTick
  cases hfx : findNpc s id with
  | none =>
    simp only [hfx]
    exact h
  | some n =>
    simp only [hfx]
    by_cases hph : n.phase = NpcPhase.goodbyeEmote
    · rw [if_pos hph]
      have hmem : n ∈ s.npcs := List.mem_of_find?_eq_some hfx
      show Inv (if (2000 : ℚ) ≤ n.phaseElapsed + dt * 1000 then
          updateNpc s id (fun m =>
            { m with phase := NpcPhase.returning, phaseElapsed := 0 })
        else updateNpc s id (fun m => { m with phaseElapsed := n.phaseElapsed + dt * 1000 }))
      by_cases he : (2000 : ℚ) ≤ n.phaseElapsed + dt * 1000
      · rw [if_pos he]
        refine inv_updateNpc s id
          (fun m => { m with phase := NpcPhase.returning, phaseElapsed := 0 })
          n hfx (fun m => rfl) ?_ rfl ?_ ?_ h
        · show claimsSpot ({ n with phase := NpcPhase.returning,
                                    phaseElapsed := 0 } : NPC) = claimsSpot n
          have hcn : claimsSpot n = false := by
            unfold claimsSpot
            rw [hph]
            decide
          rw [hcn]
          rfl
        · intro hti hri
          exact absurd (h.2.2.2.2.2.2.1 n hmem hti hri) (by simp [hph])
        · intro hia
          rcases h.2.2.2.2.2.2.2 n hmem hia with hw | ⟨hg, _⟩
          · exact absurd hw (by simp [hph])
          · exact absurd hg (by simp [hph])
      · rw [if_neg he]
        refine inv_updateNpc s id
          (fun m => { m with phaseElapsed := n.phaseElapsed + dt * 1000 })
          n hfx (fun m => rfl) rfl rfl ?_ ?_ h
        · intro hti hri
          exact absurd (h.2.2.2.2.2.2.1 n hmem hti hri) (by simp [hph])
        · intro hia
          rcases h.2.2.2.2.2.2.2 n hmem hia with hw | ⟨hg, _⟩
          · exact absurd hw (by simp [hph])
          · exact absurd hg (by simp [hph])
    · rw [if_neg hph]
      exact h

theorem inv_npcArrive (s : GameState) (id : Nat) (r : ℚ) (h : Inv s) :
    Inv (npcArrive s id r) := by
  unfold npcArrive
  cases hfx : findNpc s id with
  | none =>
    simp only [hfx]
    exact h
  | some n =>
    simp only [hfx]
    by_cases hph : n.phase = NpcPhase.walkingIn
    · rw [if_pos hph]
      have h1i : Inv (updateNpc s id (fun m => { m with phase := NpcPhase.waiting })) := by
        refine inv_updateNpc s id (fun m => { m with phase := NpcPhase.waiting })
          n hfx (fun m => rfl) ?_ rfl ?_ ?_ h
        · show claimsSpot ({ n with phase := NpcPhase.waiting } : NPC) = claimsSpot n
          have hcn : claimsSpot n = true := by
            unfold claimsSpot
            rw [hph]
            decide
          rw [hcn]
          rfl
        · intro _ _
          rfl
        · intro _
          exact Or.inl rfl
      have hf1 : findNpc (updateNpc s id (fun m => { m with phase := NpcPhase.waiting })) id
          = some ({ n with phase := NpcPhase.waiting } : NPC) :=
        findNpc_updateNpc_some s id _ n (fun m => rfl) hfx
      have h2i : Inv (activateInteraction
          (updateNpc s id (fun m => { m with phase := NpcPhase.waiting })) id) := by
        refine inv_updateNpc _ id (fun m => { m with interactionActive := true })
          _ hf1 (fun m => rfl) rfl rfl ?_ ?_ h1i
        · intro _ _
          rfl
        · intro _
          exact Or.inl rfl
      have hf2 : findNpc (activateInteraction
            (updateNpc s id (fun m => { m with phase := NpcPhase.waiting })) id) id
          = some ({ n with phase := NpcPhase.waiting, interactionActive := true } : NPC) :=
        findNpc_updateNpc_some _ id (fun m => { m with interactionActive := true })
          ({ n with phase := NpcPhase.waiting } : NPC) (fun m => rfl) hf1
      refine inv_updateNpc _ id
        (fun m => { m with waitTimerActive := true, waitElapsed := 0,
                           actualWaitTime :=
                             NPC_WAIT_TIME + (r - 1/2) * 2 * NPC_WAIT_TIME_VARIATION })
        _ hf2 (fun m => rfl) rfl rfl ?_ ?_ h2i
      · intro _ _
        rfl
      · intro _
        exact Or.inl rfl
    · rw [if_neg hph]
      exact h

theorem occupy_map_ids (spots : List Spot) (sid : Nat) :
    (spots.map (fun t => if t.id == sid then { t with occupied := true } else t)).map
        Spot.id
      = spots.map Spot.id := by
  rw [List.map_map]
  apply List.map_congr_left
  intro a ha
  simp only [Function.comp_apply]
  split <;> rfl

theorem countP_singleton (x : NPC) (p : NPC → Bool) :
    List.countP p [x] = if p x = true then 1 else 0 := by
  rw [List.countP_cons, List.countP_nil, Nat.zero_add]

/-- The state produced by a firing spawner tick satisfies the invariant. -/
theorem inv_spawn_step (s : GameState) (dt : ℚ) (isElf : Bool) (sp₀ : Spot)
    (h : Inv s) (hsp : s.isSpawning = true)
    (hmem : sp₀ ∈ s.spots) (hocc : sp₀.occupied = false) :
    Inv { s with elapsedTime := s.elapsedTime + dt * 1000,
                 spots := s.spots.map (fun t =>
                   if t.id == sp₀.id then { t with occupied := true } else t),
                 activeNPCs := s.activeNPCs ++ [s.npcIndex],
                 npcs := s.npcs ++ [mkNPC s.npcIndex sp₀.id isElf],
                 npcIndex := s.npcIndex + 1 } := by
  obtain ⟨h1, h2, h3, h4, h5, h6, h7, h8⟩ := h
  have hnd : (s.spots.map Spot.id).Nodup := by
    rw [h2]
    decide
  refine ⟨?_, ?_, ?_, ?_, ?_, ?_, ?_, ?_⟩
  · intro sp hsp'
    have hmm : sp ∈ s.spots.map (fun t =>
        if t.id == sp₀.id then { t with occupied := true } else t) := hsp'
    rcases List.mem_map.mp hmm with ⟨a, hamem, hae⟩
    by_cases haid : (a.id == sp₀.id) = true
    · rw [if_pos haid] at hae
      have haeq : a = sp₀ :=
        spot_eq_of_mem_nodup s.spots a sp₀ hnd hamem hmem (by simpa using haid)
      have hid_eq : sp.id = sp₀.id := by
        rw [← hae, haeq]
      have hocc_eq : sp.occupied = true := by
        rw [← hae]
      rw [hid_eq, hocc_eq]
      have hnew1 : List.countP (fun m => claimsSpot m && m.spotId == sp₀.id)
          [mkNPC s.npcIndex sp₀.id isElf] = 1 := by
        rw [countP_singleton]
        simp [mkNPC, claimsSpot]
      have hold0 : s.npcs.countP (fun m => claimsSpot m && m.spotId == sp₀.id) = 0 := by
        have hh := h1 sp₀ hmem
        rw [claimantCount_def] at hh
        simp only [hocc] at hh
        simpa using hh
      have hcc : claimantCount ({ s with
            elapsedTime := s.elapsedTime + dt * 1000,
            spots := s.spots.map (fun t =>
              if t.id == sp₀.id then { t with occupied := true } else t),
            activeNPCs := s.activeNPCs ++ [s.npcIndex],
            npcs := s.npcs ++ [mkNPC s.npcIndex sp₀.id isElf],
            npcIndex := s.npcIndex + 1 } : GameState) sp₀.id
          = s.npcs.countP (fun m => claimsSpot m && m.spotId == sp₀.id)
            + List.countP (fun m => claimsSpot m && m.spotId == sp₀.id)
                [mkNPC s.npcIndex sp₀.id isElf] :=
        countP_append_npc s.npcs [mkNPC s.npcIndex sp₀.id isElf] _
      rw [hcc, hold0, hnew1]
      rfl
    · rw [if_neg haid] at hae
      have hid_eq : sp.id = a.id := by
        rw [← hae]
      have hocc_eq : sp.occupied = a.occupied := by
        rw [← hae]
      rw [hid_eq, hocc_eq]
      have hane : ¬ a.id = sp₀.id := by simpa using haid
      have hnew0 : List.countP (fun m => claimsSpot m && m.spotId == a.id)
          [mkNPC s.npcIndex sp₀.id isElf] = 0 := by
        have hne : (sp₀.id == a.id) = false := by
          simp only [beq_eq_false_iff_ne]
          intro hh
          exact hane hh.symm
        rw [countP_singleton]
        simp [mkNPC, claimsSpot, hne]
      have hcc : claimantCount ({ s with
            elapsedTime := s.elapsedTime + dt * 1000,
            spots := s.spots.map (fun t =>
              if t.id == sp₀.id then { t with occupied := true } else t),
            activeNPCs := s.activeNPCs ++ [s.npcIndex],
            npcs := s.npcs ++ [mkNPC s.npcIndex sp₀.id isElf],
            npcIndex := s.npcIndex + 1 } : GameState) a.id
          = s.npcs.countP (fun m => claimsSpot m && m.spotId == a.id)
            + List.countP (fun m => claimsSpot m && m.spotId == a.id)
                [mkNPC s.npcIndex sp₀.id isElf] :=
        countP_append_npc s.npcs [mkNPC s.npcIndex sp₀.id isElf] _
      rw [hcc, hnew0, Nat.add_zero]
      have hh := h1 a hamem
      rw [claimantCount_def] at hh
      exact hh
  · show (s.spots.map (fun t =>
        if t.id == sp₀.id then { t with occupied := true } else t)).map Spot.id
      = [0, 1, 2]
    rw [occupy_map_ids]
    exact h2
  · intro x hx
    rcases List.mem_append.mp hx with holdm | hnew
    · show x.npcId ∈ s.activeNPCs ++ [s.npcIndex]
      exact List.mem_append_left _ (h3 x holdm)
    · have hxn : x = mkNPC s.npcIndex sp₀.id isElf := by simpa using hnew
      subst hxn
      show (mkNPC s.npcIndex sp₀.id isElf).npcId ∈ s.activeNPCs ++ [s.npcIndex]
      apply List.mem_append_right
      simp [mkNPC]
  · show ((s.npcs ++ [mkNPC s.npcIndex sp₀.id isElf]).map NPC.npcId).Nodup
    rw [List.map_append]
    apply nodup_append_singleton _ _ h4
    intro hmem'
    rcases List.mem_map.mp hmem' with ⟨y, hy, hye⟩
    have hlt := h5 y hy
    have hyn : y.npcId = s.npcIndex := by simpa [mkNPC] using hye
    omega
  · intro x hx
    rcases List.mem_append.mp hx with holdm | hnew
    · show x.npcId < s.npcIndex + 1
      exact Nat.lt_succ_of_lt (h5 x holdm)
    · have hxn : x = mkNPC s.npcIndex sp₀.id isElf := by simpa using hnew
      subst hxn
      show (mkNPC s.npcIndex sp₀.id isElf).npcId < s.npcIndex + 1
      exact Nat.lt_succ_self _
  · intro hg
    exact absurd ((h6 hg).2.2) (by simp [hsp])
  · intro x hx hti hri
    rcases List.mem_append.mp hx with holdm | hnew
    · exact h7 x holdm hti hri
    · have hxn : x = mkNPC s.npcIndex sp₀.id isElf := by simpa using hnew
      rw [hxn] at hti
      exact absurd hti (by simp [mkNPC])
  · intro x hx hia
    rcases List.mem_append.mp hx with holdm | hnew
    · exact h8 x holdm hia
    · have hxn : x = mkNPC s.npcIndex sp₀.id isElf := by simpa using hnew
      rw [hxn] at hia
      exact absurd hia (by simp [mkNPC])

theorem inv_spawnerTick (s : GameState) (dt : ℚ) (isElf : Bool) (h : Inv s) :
    Inv (spawnerTick s dt isElf) := by
  by_cases hsp : s.isSpawning = true
  · by_cases hcond : (s.npcIndex : ℚ) * s.spawnInterval ≤ s.elapsedTime + dt * 1000
    · cases hfree : getFreeSpot s.spots with
      | none =>
        rw [spawnerTick_skip s dt isElf hsp hfree]
        exact inv_core s _ rfl rfl rfl rfl rfl rfl h
      | some sp₀ =>
        have hnd : (s.spots.map Spot.id).Nodup := by
          rw [h.2.1]
          decide
        obtain ⟨hmem, hocc⟩ := getFreeSpot_mem_free s.spots sp₀ hfree
        rw [spawnerTick_spawns s dt isElf sp₀ hsp hcond hfree hnd]
        exact inv_spawn_step s dt isElf sp₀ h hsp hmem hocc
    · rw [spawnerTick_notYet s dt isElf hsp (not_le.mp hcond)]
      exact inv_core s _ rfl rfl rfl rfl rfl rfl h
  · unfold spawnerTick
    rw [if_neg hsp]
    exact h

theorem findNpc_incrementBad (s : GameState) (id : Nat)
    (h3 : ∀ n ∈ s.npcs, n.npcId ∈ s.activeNPCs) :
    findNpc (incrementBadDelivered s) id = none
      ∨ findNpc (incrementBadDelivered s) id = findNpc s id := by
  unfold incrementBadDelivered
  split
  · left
    apply findNpc_nil
    show s.npcs.filter (fun n => !(s.activeNPCs.contains n.npcId)) = []
    exact npcs_filter_active s h3
  · right
    rfl

theorem findNpc_incrementGood (s : GameState) (id : Nat)
    (h3 : ∀ n ∈ s.npcs, n.npcId ∈ s.activeNPCs) :
    findNpc (incrementGoodDelivered s) id = none
      ∨ findNpc (incrementGoodDelivered s) id = findNpc s id := by
  unfold incrementGoodDelivered
  split
  · left
    apply findNpc_nil
    show s.npcs.filter (fun n => !(s.activeNPCs.contains n.npcId)) = []
    exact npcs_filter_active s h3
  · right
    rfl

theorem inv_waitTimerTick (s : GameState) (id : Nat) (dt : ℚ) (h : Inv s) :
    Inv (waitTimerTick s id dt) := by
  unfold waitTimerTick
  cases hfx : findNpc s id with
  | none =>
    simp only [hfx]
    exact h
  | some n =>
    simp only [hfx]
    by_cases hti : n.waitTimerActive = true
    · rw [if_pos hti]
      have hmem : n ∈ s.npcs := List.mem_of_find?_eq_some hfx
      by_cases hri : n.hasReceivedItem = true
      · rw [if_pos hri]
        refine inv_updateNpc s id (fun m => { m with waitTimerActive := false })
          n hfx (fun m => rfl) rfl rfl ?_ ?_ h
        · intro hta _
          exact absurd hta (by simp)
        · intro hia
          exact h.2.2.2.2.2.2.2 n hmem hia
      · rw [if_neg hri]
        have hrecv : n.hasReceivedItem = false := by
          cases hh : n.hasReceivedItem
          · rfl
          · exact absurd hh hri
        have hwaiting : n.phase = NpcPhase.waiting :=
          h.2.2.2.2.2.2.1 n hmem hti hrecv
        show Inv (if n.actualWaitTime ≤ n.waitElapsed + dt then
            sendNPCBack false
              (incrementBadDelivered
                (updateNpc s id (fun m =>
                  { m with waitElapsed := n.waitElapsed + dt,
                           noLongerAcceptsItems := true,
                           interactionActive := false, waitTimerActive := false })))
              id
          else updateNpc s id (fun m => { m with waitElapsed := n.waitElapsed + dt }))
        by_cases hexp : n.actualWaitTime ≤ n.waitElapsed + dt
        · rw [if_pos hexp]
          have hupd : Inv (updateNpc s id (fun m =>
              { m with waitElapsed := n.waitElapsed + dt, noLongerAcceptsItems := true,
                       interactionActive := false, waitTimerActive := false })) := by
            refine inv_updateNpc s id
              (fun m => { m with waitElapsed := n.waitElapsed + dt,
                                 noLongerAcceptsItems := true,
                                 interactionActive := false, waitTimerActive := false })
              n hfx (fun m => rfl) rfl rfl ?_ ?_ h
            · intro hta _
              exact absurd hta (by simp)
            · intro hia
              exact absurd hia (by simp)
          have hf1 : findNpc (updateNpc s id (fun m =>
              { m with waitElapsed := n.waitElapsed + dt, noLongerAcceptsItems := true,
                       interactionActive := false, waitTimerActive := false })) id
              = some ({ n with waitElapsed := n.waitElapsed + dt,
                               noLongerAcceptsItems := true,
                               interactionActive := false,
                               waitTimerActive := false } : NPC) :=
            findNpc_updateNpc_some s id _ n (fun m => rfl) hfx
          apply inv_sendNPCBack false _ id (inv_incrementBad _ hupd)
          intro m hm
          rcases findNpc_incrementBad (updateNpc s id (fun m =>
              { m with waitElapsed := n.waitElapsed + dt, noLongerAcceptsItems := true,
                       interactionActive := false, waitTimerActive := false }))
              id hupd.2.2.1 with hnone | hsame
          · rw [hnone] at hm
            exact Option.noConfusion hm
          · rw [hsame, hf1] at hm
            have hmn : m = ({ n with waitElapsed := n.waitElapsed + dt,
                                     noLongerAcceptsItems := true,
                                     interactionActive := false,
                                     waitTimerActive := false } : NPC) :=
              (Option.some.inj hm).symm
            subst hmn
            refine ⟨?_, Or.inl rfl, Or.inl rfl⟩
            show (n.phase == NpcPhase.walkingIn || n.phase == NpcPhase.waiting) = true
            rw [hwaiting]
            decide
        · rw [if_neg hexp]
          refine inv_updateNpc s id
            (fun m => { m with waitElapsed := n.waitElapsed + dt })
            n hfx (fun m => rfl) rfl rfl ?_ ?_ h
          · intro _ hr2
            exact h.2.2.2.2.2.2.1 n hmem hti hr2
          · intro hia
            exact h.2.2.2.2.2.2.2 n hmem hia
    · rw [if_neg hti]
      exact h

/-- Attaching an item to an NPC record never disturbs the invariant. -/
theorem inv_updateNpc_item (s : GameState) (id : Nat) (t : ItemType) (h : Inv s) :
    Inv (updateNpc s id (fun m => { m with npcHeldItem := some t })) := by
  cases hfx : findNpc s id with
  | none =>
    rw [updateNpc_of_findNpc_none s id _ hfx]
    exact h
  | some m =>
    refine inv_updateNpc s id (fun m => { m with npcHeldItem := some t })
      m hfx (fun m => rfl) rfl rfl ?_ ?_ h
    · intro hta hr2
      exact h.2.2.2.2.2.2.1 m (List.mem_of_find?_eq_some hfx) hta hr2
    · intro hia
      exact h.2.2.2.2.2.2.2 m (List.mem_of_find?_eq_some hfx) hia

theorem giveItemTry_late (s : GameState) (id : Nat) (t : ItemType) (isElf : Bool)
    (E : Nat) (hE : 5 ≤ E) :
    giveItemTry s id t isElf (some E) = giveItemTry s id t isElf none := by
  unfold giveItemTry
  have h0 : decide (0 < E) = true := decide_eq_true (by omega)
  have h1 : decide (1 < E) = true := decide_eq_true (by omega)
  have h2 : decide (2 < E) = true := decide_eq_true (by omega)
  have h3 : decide (3 < E) = true := decide_eq_true (by omega)
  have h4 : decide (4 < E) = true := decide_eq_true (by omega)
  simp [h0, h1, h2, h3, h4]

/-- The `try` block preserves the invariant no matter where an error cuts it
short. -/
theorem inv_giveItemTry (s : GameState) (id : Nat) (t : ItemType) (isElf : Bool)
    (errAt : Option Nat) (h : Inv s) :
    Inv (giveItemTry s id t isElf errAt).1 := by
  rcases errAt with _ | (_ | _ | _ | _ | _ | e)
  · show Inv (updateNpc
        (if (decide (t = expectedItemType isElf)) = true then
          incrementGoodDelivered (clearUIMessage { s with playerHeld := none })
        else showUIMessage "Wrong item"
          (incrementBadDelivered (clearUIMessage { s with playerHeld := none })))
        id (fun m => { m with npcHeldItem := some t }))
    split
    · exact inv_updateNpc_item _ id t
        (inv_incrementGood _ (inv_core s _ rfl rfl rfl rfl rfl rfl h))
    · exact inv_updateNpc_item _ id t
        (inv_core _ _ rfl rfl rfl rfl rfl rfl
          (inv_incrementBad _ (inv_core s _ rfl rfl rfl rfl rfl rfl h)))
  · exact h
  · exact h
  · exact inv_core s _ rfl rfl rfl rfl rfl rfl h
  · exact inv_core s _ rfl rfl rfl rfl rfl rfl h
  · show Inv (if (decide (t = expectedItemType isElf)) = true then
        incrementGoodDelivered (clearUIMessage { s with playerHeld := none })
      else showUIMessage "Wrong item"
        (incrementBadDelivered (clearUIMessage { s with playerHeld := none })))
    split
    · exact inv_incrementGood _ (inv_core s _ rfl rfl rfl rfl rfl rfl h)
    · exact inv_core _ _ rfl rfl rfl rfl rfl rfl
        (inv_incrementBad _ (inv_core s _ rfl rfl rfl rfl rfl rfl h))
  · rw [giveItemTry_late s id t isElf _ (by omega)]
    show Inv (updateNpc
        (if (decide (t = expectedItemType isElf)) = true then
          incrementGoodDelivered (clearUIMessage { s with playerHeld := none })
        else showUIMessage "Wrong item"
          (incrementBadDelivered (clearUIMessage { s with playerHeld := none })))
        id (fun m => { m with npcHeldItem := some t }))
    split
    · exact inv_updateNpc_item _ id t
        (inv_incrementGood _ (inv_core s _ rfl rfl rfl rfl rfl rfl h))
    · exact inv_updateNpc_item _ id t
        (inv_core _ _ rfl rfl rfl rfl rfl rfl
          (inv_incrementBad _ (inv_core s _ rfl rfl rfl rfl rfl rfl h)))

/-- Whoever is still found under the interacted id after the `try` block
carries the phase, latch and surface flags it entered the block with: the
block only touches the held-item attachment (and possibly ends the game, in
which case nobody is found). -/
theorem giveItemTry_find_fields (s : GameState) (id : Nat) (t : ItemType)
    (isElf : Bool) (errAt : Option Nat) (n' : NPC)
    (h3 : ∀ x ∈ s.npcs, x.npcId ∈ s.activeNPCs)
    (hf' : findNpc s id = some n') :
    ∀ m, findNpc (giveItemTry s id t isElf errAt).1 id = some m →
      m.phase = n'.phase ∧ m.hasReceivedItem = n'.hasReceivedItem
        ∧ m.waitTimerActive = n'.waitTimerActive
        ∧ m.interactionActive = n'.interactionActive := by
  have hfS2 : findNpc (clearUIMessage { s with playerHeld := none }) id = some n' := hf'
  have h3S2 : ∀ x ∈ (clearUIMessage ({ s with playerHeld := none } : GameState)).npcs,
      x.npcId ∈ (clearUIMessage ({ s with playerHeld := none } : GameState)).activeNPCs :=
    h3
  rcases errAt with _ | (_ | _ | _ | _ | _ | e)
  · intro m hm
    have hm2 : findNpc (updateNpc
        (if (decide (t = expectedItemType isElf)) = true then
          incrementGoodDelivered (clearUIMessage { s with playerHeld := none })
        else showUIMessage "Wrong item"
          (incrementBadDelivered (clearUIMessage { s with playerHeld := none })))
        id (fun m => { m with npcHeldItem := some t })) id = some m := hm
    split at hm2
    · rcases findNpc_incrementGood (clearUIMessage { s with playerHeld := none })
        id h3S2 with hnone | hsame
      · rw [updateNpc_of_findNpc_none _ _ _ hnone, hnone] at hm2
        exact Option.noConfusion hm2
      · have hfinc : findNpc (incrementGoodDelivered
            (clearUIMessage { s with playerHeld := none })) id = some n' :=
          hsame.trans hfS2
        rw [findNpc_updateNpc_some _ id (fun m => { m with npcHeldItem := some t })
          n' (fun m => rfl) hfinc] at hm2
        obtain rfl := (Option.some.inj hm2).symm
        exact ⟨rfl, rfl, rfl, rfl⟩
    · rcases findNpc_incrementBad (clearUIMessage { s with playerHeld := none })
        id h3S2 with hnone | hsame
      · have hnone' : findNpc (showUIMessage "Wrong item" (incrementBadDelivered
            (clearUIMessage { s with playerHeld := none }))) id = none := hnone
        rw [updateNpc_of_findNpc_none _ _ _ hnone', hnone'] at hm2
        exact Option.noConfusion hm2
      · have hfinc : findNpc (showUIMessage "Wrong item" (incrementBadDelivered
            (clearUIMessage { s with playerHeld := none }))) id = some n' :=
          hsame.trans hfS2
        rw [findNpc_updateNpc_some _ id (fun m => { m with npcHeldItem := some t })
          n' (fun m => rfl) hfinc] at hm2
        obtain rfl := (Option.some.inj hm2).symm
        exact ⟨rfl, rfl, rfl, rfl⟩
  · intro m hm
    have hm2 : findNpc s id = some m := hm
    rw [hf'] at hm2
    obtain rfl := (Option.some.inj hm2).symm
    exact ⟨rfl, rfl, rfl, rfl⟩
  · intro m hm
    have hm2 : findNpc s id = some m := hm
    rw [hf'] at hm2
    obtain rfl := (Option.some.inj hm2).symm
    exact ⟨rfl, rfl, rfl, rfl⟩
  · intro m hm
    have hm2 : findNpc s id = some m := hm
    rw [hf'] at hm2
    obtain rfl := (Option.some.inj hm2).symm
    exact ⟨rfl, rfl, rfl, rfl⟩
  · intro m hm
    have hm2 : findNpc s id = some m := hm
    rw [hf'] at hm2
    obtain rfl := (Option.some.inj hm2).symm
    exact ⟨rfl, rfl, rfl, rfl⟩
  · intro m hm
    have hm2 : findNpc
        (if (decide (t = expectedItemType isElf)) = true then
          incrementGoodDelivered (clearUIMessage { s with playerHeld := none })
        else showUIMessage "Wrong item"
          (incrementBadDelivered (clearUIMessage { s with playerHeld := none }))) id
        = some m := hm
    split at hm2
    · rcases findNpc_incrementGood (clearUIMessage { s with playerHeld := none })
        id h3S2 with hnone | hsame
      · rw [hnone] at hm2
        exact Option.noConfusion hm2
      · rw [hsame, hfS2] at hm2
        obtain rfl := (Option.some.inj hm2).symm
        exact ⟨rfl, rfl, rfl, rfl⟩
    · rcases findNpc_incrementBad (clearUIMessage { s with playerHeld := none })
        id h3S2 with hnone | hsame
      · have hnone' : findNpc (showUIMessage "Wrong item" (incrementBadDelivered
            (clearUIMessage { s with playerHeld := none }))) id = none := hnone
        rw [hnone'] at hm2
        exact Option.noConfusion hm2
      · have hsame' : findNpc (showUIMessage "Wrong item" (incrementBadDelivered
            (clearUIMessage { s with playerHeld := none }))) id
            = findNpc (clearUIMessage ({ s with playerHeld := none } : GameState)) id :=
          hsame
        rw [hsame', hfS2] at hm2
        obtain rfl := (Option.some.inj hm2).symm
        exact ⟨rfl, rfl, rfl, rfl⟩
  · intro m hm
    rw [giveItemTry_late s id t isElf _ (by omega)] at hm
    have hm2 : findNpc (updateNpc
        (if (decide (t = expectedItemType isElf)) = true then
          incrementGoodDelivered (clearUIMessage { s with playerHeld := none })
        else showUIMessage "Wrong item"
          (incrementBadDelivered (clearUIMessage { s with playerHeld := none })))
        id (fun m => { m with npcHeldItem := some t })) id = some m := hm
    split at hm2
    · rcases findNpc_incrementGood (clearUIMessage { s with playerHeld := none })
        id h3S2 with hnone | hsame
      · rw [updateNpc_of_findNpc_none _ _ _ hnone, hnone] at hm2
        exact Option.noConfusion hm2
      · have hfinc : findNpc (incrementGoodDelivered
            (clearUIMessage { s with playerHeld := none })) id = some n' :=
          hsame.trans hfS2
        rw [findNpc_updateNpc_some _ id (fun m => { m with npcHeldItem := some t })
          n' (fun m => rfl) hfinc] at hm2
        obtain rfl := (Option.some.inj hm2).symm
        exact ⟨rfl, rfl, rfl, rfl⟩
    · rcases findNpc_incrementBad (clearUIMessage { s with playerHeld := none })
        id h3S2 with hnone | hsame
      · have hnone' : findNpc (showUIMessage "Wrong item" (incrementBadDelivered
            (clearUIMessage { s with playerHeld := none }))) id = none := hnone
        rw [updateNpc_of_findNpc_none _ _ _ hnone', hnone'] at hm2
        exact Option.noConfusion hm2
      · have hfinc : findNpc (showUIMessage "Wrong item" (incrementBadDelivered
            (clearUIMessage { s with playerHeld := none }))) id = some n' :=
          hsame.trans hfS2
        rw [findNpc_updateNpc_some _ id (fun m => { m with npcHeldItem := some t })
          n' (fun m => rfl) hfinc] at hm2
        obtain rfl := (Option.some.inj hm2).symm
        exact ⟨rfl, rfl, rfl, rfl⟩

theorem inv_handleNPCInteraction (s : GameState) (id : Nat) (errAt : Option Nat)
    (h : Inv s) : Inv (handleNPCInteraction s id errAt) := by
  unfold handleNPCInteraction
  cases hfx : findNpc s id with
  | none =>
    simp only [hfx]
    exact h
  | some n =>
    simp only [hfx]
    by_cases hia : n.interactionActive = true
    · rw [if_pos hia]
      cases hheld : s.playerHeld with
      | none =>
        simp only [hheld]
        exact inv_core s _ rfl rfl rfl rfl rfl rfl h
      | some t =>
        simp only [hheld]
        unfold giveItemToNPC
        simp only [hfx]
        by_cases hgo : s.isGameOver = true
        · rw [if_pos hgo]
          exact h
        · rw [if_neg hgo]
          by_cases hno : n.noLongerAcceptsItems = true
          · rw [if_pos hno]
            exact inv_core s _ rfl rfl rfl rfl rfl rfl h
          · rw [if_neg hno]
            by_cases hrecv : n.hasReceivedItem = true
            · rw [if_pos hrecv]
              exact h
            · rw [if_neg hrecv]
              have hmem : n ∈ s.npcs := List.mem_of_find?_eq_some hfx
              have hrecvF : n.hasReceivedItem = false := by
                cases hh : n.hasReceivedItem
                · rfl
                · exact absurd hh hrecv
              have hwait : n.phase = NpcPhase.waiting := by
                rcases h.2.2.2.2.2.2.2 n hmem hia with hw | ⟨_, hr⟩
                · exact hw
                · rw [hrecvF] at hr
                  exact Bool.noConfusion hr
              have hs1 : Inv (updateNpc s id
                  (fun m => { m with hasReceivedItem := true })) := by
                refine inv_updateNpc s id (fun m => { m with hasReceivedItem := true })
                  n hfx (fun m => rfl) rfl rfl ?_ ?_ h
                · intro _ hr2
                  exact Bool.noConfusion hr2
                · intro _
                  exact Or.inl hwait
              have hf1 : findNpc (updateNpc s id
                  (fun m => { m with hasReceivedItem := true })) id
                  = some ({ n with hasReceivedItem := true } : NPC) :=
                findNpc_updateNpc_some s id _ n (fun m => rfl) hfx
              have htry : Inv (giveItemTry
                  (updateNpc s id (fun m => { m with hasReceivedItem := true }))
                  id t n.isElf errAt).1 :=
                inv_giveItemTry _ id t n.isElf errAt hs1
              cases hff : findNpc (giveItemTry
                  (updateNpc s id (fun m => { m with hasReceivedItem := true }))
                  id t n.isElf errAt).1 id with
              | none =>
                simp only [hff]
                exact htry
              | some m =>
                simp only [hff]
                apply inv_sendNPCBack _ _ id htry
                intro m' hm'
                obtain ⟨hph', hrc', _, _⟩ := giveItemTry_find_fields
                  (updateNpc s id (fun m => { m with hasReceivedItem := true }))
                  id t n.isElf errAt ({ n with hasReceivedItem := true } : NPC)
                  hs1.2.2.1 hf1 m' hm'
                have hw2 : ({ n with hasReceivedItem := true } : NPC).phase
                    = NpcPhase.waiting := hwait
                refine ⟨?_, Or.inr hrc', Or.inr hrc'⟩
                show (m'.phase == NpcPhase.walkingIn
                    || m'.phase == NpcPhase.waiting) = true
                rw [hph', hw2]
                decide
    · rw [if_neg hia]
      exact h

/-- Every frame-loop event preserves the invariant. -/
theorem inv_step (s t : GameState) (hst : Step s t) (h : Inv s) : Inv t := by
  cases hst with
  | spawner dt isElf hdt => exact inv_spawnerTick s dt isElf h
  | arrive id r h0 h1 => exact inv_npcArrive s id r h
  | waitTick id dt hdt => exact inv_waitTimerTick s id dt h
  | interact id errAt => exact inv_handleNPCInteraction s id errAt h
  | byeDelay id dt hdt => exact inv_goodbyeDelayTick s id dt h
  | byeEmote id dt hdt => exact inv_goodbyeEmoteTick s id dt h
  | despawn id => exact inv_despawnNPC s id h
  | stopSp => exact inv_stopSpawning s h
  | reset => exact inv_resetGame s h
  | economy o => exact inv_setHeld s o h

theorem inv_initial : Inv initialState := by
  refine ⟨?_, by decide, ?_⟩
  · unfold SpotInvariant
    decide
  · unfold InvNpcs
    decide

theorem inv_reachable (s : GameState) (h : Reachable s) : Inv s := by
  induction h with
  | init => exact inv_initial
  | step hr hst ih => exact inv_step _ _ hst ih

/-- A tick that finds no free spot leaves the registry, the spots and the
active list untouched. -/
theorem spawnerTick_full_npcs (s : GameState) (dt : ℚ) (isElf : Bool)
    (hfree : getFreeSpot s.spots = none) :
    (spawnerTick s dt isElf).npcs = s.npcs
      ∧ (spawnerTick s dt isElf).spots = s.spots
      ∧ (spawnerTick s dt isElf).activeNPCs = s.activeNPCs := by
  by_cases hsp : s.isSpawning = true
  · rw [spawnerTick_skip s dt isElf hsp hfree]
    exact ⟨rfl, rfl, rfl⟩
  · unfold spawnerTick
    rw [if_neg hsp]
    exact ⟨rfl, rfl, rfl⟩

theorem spawnerTick_full_trace (s : GameState) (ticks : List (ℚ × Bool))
    (hfree : getFreeSpot s.spots = none) :
    (ticks.foldl (fun u p => spawnerTick u p.1 p.2) s).npcs = s.npcs := by
  revert hfree
  induction ticks generalizing s with
  | nil =>
    intro _
    rfl
  | cons a rest ih =>
    intro hfree
    rw [List.foldl_cons]
    obtain ⟨hn, hs, _⟩ := spawnerTick_full_npcs s a.1 a.2 hfree
    rw [ih (spawnerTick s a.1 a.2) (by rw [hs]; exact hfree), hn]

/-- A state in which all three spots are taken by walking-in NPCs. -/
def demoFullState : GameState :=
  { spots := [{ id := 0, occupied := true }, { id := 1, occupied := true },
              { id := 2, occupied := true }],
    npcIndex := 3, elapsedTime := 0, spawnInterval := NPC_SPAWN_INTERVAL,
    isSpawning := true, activeNPCs := [0, 1, 2],
    npcs := [mkNPC 0 0 true, mkNPC 1 1 false, mkNPC 2 2 true],
    goodDelivered := 0, badDelivered := 0, isGameOver := false,
    playerHeld := none, uiMessage := "" }

/-- C3: in every reachable state each spot's occupied flag is set exactly when
one live NPC (walking in or waiting; the walk-out releases the claim) is
assigned to that spot — never more than one; occupying an already-occupied or
missing spot fails closed (`occupySpot` keeps the spot list and reports
`false`), whereupon `createWalkingNPC` aborts without creating anything; a
spawner tick that finds no free spot creates no NPC and leaves registry and
spots alone, so with all 3 spots occupied any number of ticks creates 0 new
NPCs. -/
theorem c3_spot_occupancy :
    (∀ s, Reachable s → ∀ sp ∈ s.spots,
      (sp.occupied = true ↔ claimantCount s sp.id = 1) ∧ claimantCount s sp.id ≤ 1)
    ∧ (∀ spots sid sp, spots.find? (fun q => q.id == sid) = some sp →
        sp.occupied = true → occupySpot spots sid = (spots, false))
    ∧ (∀ spots sid, spots.find? (fun q => q.id == sid) = none →
        occupySpot spots sid = (spots, false))
    ∧ (∀ s i sid e, (occupySpot s.spots sid).2 = false → createWalkingNPC s i sid e = s)
    ∧ (∀ s dt e, getFreeSpot s.spots = none →
        (spawnerTick s dt e).npcs = s.npcs ∧ (spawnerTick s dt e).spots = s.spots)
    ∧ (∀ s (ticks : List (ℚ × Bool)), getFreeSpot s.spots = none →
        (ticks.foldl (fun u p => spawnerTick u p.1 p.2) s).npcs = s.npcs) := by
  refine ⟨?_, ?_, ?_, ?_, ?_, ?_⟩
  · intro s hr sp hsp
    have h1 := (inv_reachable s hr).1 sp hsp
    cases hocc : sp.occupied
    · simp only [hocc] at h1
      simp at h1
      refine ⟨⟨?_, ?_⟩, ?_⟩
      · intro ho
        exact Bool.noConfusion ho
      · intro hc
        rw [h1] at hc
        exact absurd hc (by decide)
      · rw [h1]
        decide
    · simp only [hocc] at h1
      simp at h1
      refine ⟨⟨fun _ => h1, fun _ => rfl⟩, ?_⟩
      rw [h1]
  · intro spots sid sp hfind hocc
    unfold occupySpot
    simp only [hfind]
    rw [if_pos hocc]
  · intro spots sid hfind
    unfold occupySpot
    simp only [hfind]
  · intro s i sid e hfail
    unfold createWalkingNPC
    simp only
    rw [if_neg (by simp [hfail])]
  · intro s dt e hfree
    exact ⟨(spawnerTick_full_npcs s dt e hfree).1,
      (spawnerTick_full_npcs s dt e hfree).2.1⟩
  · intro s ticks hfree
    exact spawnerTick_full_trace s ticks hfree

/-- Witness for C3: the freshly constructed scene satisfies the per-spot
characterization, and with every spot of `demoFullState` taken, occupying
fails, creation aborts, and one or two further ticks spawn nothing. -/
theorem c3_witness :
    ((({ id := 0, occupied := false } : Spot).occupied = true
        ↔ claimantCount initialState 0 = 1)
      ∧ claimantCount initialState 0 ≤ 1)
    ∧ occupySpot demoFullState.spots 0 = (demoFullState.spots, false)
    ∧ occupySpot demoFullState.spots 7 = (demoFullState.spots, false)
    ∧ createWalkingNPC demoFullState 3 0 true = demoFullState
    ∧ (spawnerTick demoFullState 2 true).npcs = demoFullState.npcs
    ∧ ([((2 : ℚ), true), ((2 : ℚ), false)].foldl
        (fun u p => spawnerTick u p.1 p.2) demoFullState).npcs
      = demoFullState.npcs := by
  refine ⟨?_, ?_, ?_, ?_, ?_, ?_⟩
  · exact c3_spot_occupancy.1 initialState Reachable.init
      ({ id := 0, occupied := false } : Spot) (by decide)
  · exact c3_spot_occupancy.2.1 demoFullState.spots 0
      ({ id := 0, occupied := true } : Spot) rfl rfl
  · exact c3_spot_occupancy.2.2.1 demoFullState.spots 7 rfl
  · exact c3_spot_occupancy.2.2.2.1 demoFullState 3 0 true rfl
  · exact (c3_spot_occupancy.2.2.2.2.1 demoFullState 2 true rfl).1
  · exact c3_spot_occupancy.2.2.2.2.2 demoFullState
      [((2 : ℚ), true), ((2 : ℚ), false)] rfl

end OrcsWantAxes
